import Mathlib

/-! # RuntimeAudioImporter: transcoding pipeline

A shallow embedding of `RuntimeAudioImporterLibrary.cpp` (format detection,
decode/encode dispatch, and the import/export orchestration) together with
theorems about it.

Conventions of the embedding

* The codec transcoders (`MP3Transcoder`, `WAVTranscoder`, `FlacTranscoder`,
  `VorbisTranscoder`, `RAWTranscoder`), the file helpers and the engine string
  helpers are not defined in `RuntimeAudioImporterLibrary.cpp`; they are the
  fields of `Env`, and every theorem quantifies over them. Where a statement
  depends on what `RAWTranscoder` computes, the transcoder is the one modelled
  from section 4.1 of the specification.
* A C++ output reference parameter becomes an extra component of the result.
* Observable actions (adapter invocations, `OnProgress_Internal` and
  `OnResult_Internal` calls, delegate broadcasts, file writes) are appended to
  the `trace` of a `Run`, in program order.
* `AsyncTask` bodies are run in the order in which one request chains them.
  Every evaluation of `ThisPtr.IsValid()` asks the liveness oracle
  `Env.IsValid` at a fresh index (`Run.checks`), so each liveness check may
  come out either way independently of the others.
* A C++ `float` is kept as its IEEE 754 binary32 bit pattern, and the
  conversions and the division that produce it are computed on integers,
  rounded to nearest, ties to even; `float32Value` reads a pattern back as a
  number.
* Where the C++ behaviour is undefined and the process stops (the integer
  division by a zero channel count), the run ends with what was recorded
  before.
-/

namespace RuntimeAudioImporter

/-! ## Data model -/

/-- One `uint8`. -/
abbrev Byte := Fin 256

/-- Contents of a `TArray<uint8>` (or of a pointer/size pair). -/
abbrev Buffer := List Byte

/-- The enumeration `EAudioFormat`. -/
inductive EAudioFormat where
  | Auto
  | Mp3
  | Wav
  | Flac
  | OggVorbis
  | Invalid
  deriving DecidableEq, Repr, Inhabited

/-- The enumeration `ERAWAudioFormat`. -/
inductive ERAWAudioFormat where
  | Int16
  | Int32
  | UInt8
  | Float32
  deriving DecidableEq, Repr, Inhabited

/-- The values of `ETranscodingStatus` used by the importer. -/
inductive ETranscodingStatus where
  | SuccessfulImport
  | FailedToReadAudioDataArray
  | SoundWaveDeclarationError
  | InvalidAudioFormat
  | AudioDoesNotExist
  | LoadFileToArrayError
  deriving DecidableEq, Repr, Inhabited

/-- The structure `FSoundWaveBasicStruct`. `Duration` is a C++ `float`; it is
kept as its IEEE 754 binary32 bit pattern. -/
structure FSoundWaveBasicStruct where
  NumOfChannels : Int := 0
  SampleRate : Int := 0
  Duration : Nat := 0
  deriving DecidableEq, Inhabited

/-- The structure `FPCMStruct`: the interleaved 32-bit float PCM bytes and the
number of frames. -/
structure FPCMStruct where
  PCMData : Buffer := []
  PCMNumOfFrames : Nat := 0
  deriving DecidableEq, Inhabited

/-- The structure `FDecodedAudioStruct`. -/
structure FDecodedAudioStruct where
  PCMInfo : FPCMStruct := {}
  SoundWaveBasicInfo : FSoundWaveBasicStruct := {}
  deriving DecidableEq, Inhabited

/-- The structure `FEncodedAudioStruct`. -/
structure FEncodedAudioStruct where
  AudioData : Buffer := []
  AudioFormat : EAudioFormat := EAudioFormat.Invalid
  deriving DecidableEq, Inhabited

/-- The encoding format handed to `WAVTranscoder::Encode`. -/
inductive EWAVEncodingFormat where
  | FORMAT_PCM
  | FORMAT_IEEE_FLOAT
  deriving DecidableEq, Repr, Inhabited

/-- The structure `FWAVEncodingFormat(Format, BitsPerSample)`. -/
structure FWAVEncodingFormat where
  Format : EWAVEncodingFormat
  BitsPerSample : Nat
  deriving DecidableEq, Inhabited

/-- The fields of `UImportedSoundWave` written or read by the importer;
`Duration` is a binary32 bit pattern. -/
structure UImportedSoundWave where
  Duration : Nat := 0
  SampleRate : Int := 0
  SamplingRate : Int := 0
  NumChannels : Int := 0
  bIsAmbisonics : Bool := false
  bProcedural : Bool := false
  PCMBufferInfo : FPCMStruct := {}
  RawPCMDataSize : Nat := 0
  deriving DecidableEq, Inhabited

/-- Observable actions of a run, in program order. -/
inductive Event where
  /-- The `Decode` of the transcoder of the given format was invoked. -/
  | Decode (Format : EAudioFormat)
  /-- The `Encode` of the transcoder of the given format was invoked. -/
  | Encode (Format : EAudioFormat)
  /-- A call of `OnProgress_Internal(Percentage)`. -/
  | OnProgress_Internal (Percentage : Int)
  /-- A call of `OnResult_Internal(SoundWaveRef, Status)`. -/
  | OnResult_Internal (SoundWaveRef : Option UImportedSoundWave) (Status : ETranscodingStatus)
  /-- The dynamic delegate: `OnProgress.Broadcast(Percentage)`. -/
  | OnProgress_Broadcast (Percentage : Int)
  /-- The native delegate: `OnProgressNative.Broadcast(Percentage)`. -/
  | OnProgressNative_Broadcast (Percentage : Int)
  /-- The native delegate: `OnResultNative.Broadcast(this, SoundWaveRef, Status)`. -/
  | OnResultNative_Broadcast (SoundWaveRef : Option UImportedSoundWave) (Status : ETranscodingStatus)
  /-- The dynamic delegate: `OnResult.Broadcast(this, SoundWaveRef, Status)`. -/
  | OnResult_Broadcast (SoundWaveRef : Option UImportedSoundWave) (Status : ETranscodingStatus)
  /-- A call of `FFileHelper::SaveArrayToFile(AudioData, SavePath)`. -/
  | SaveArrayToFile (AudioData : Buffer) (SavePath : String)
  /-- The export-to-buffer result delegate executed with `(bSucceed, AudioData)`. -/
  | ExportToBufferResult (bSucceed : Bool) (AudioData : Buffer)
  /-- The export-to-file result delegate executed with `bSucceed`. -/
  | ExportToFileResult (bSucceed : Bool)
  /-- The RAW transcoding result delegate executed with `(bSucceed, RAWData)`. -/
  | TranscodeFromBufferResult (bSucceed : Bool) (RAWData : Buffer)
  deriving DecidableEq

/-- A codec transcoder as far as decoding is concerned: the format-sniffing
predicate and `Decode(EncodedAudioInfo, DecodedAudioInfo)`, whose result is the
returned flag with the value left in `DecodedAudioInfo`. -/
structure Transcoder where
  CheckAudioFormat : Buffer → Bool
  Decode : FEncodedAudioStruct → FDecodedAudioStruct → Bool × FDecodedAudioStruct

/-- Everything the importer calls that is defined elsewhere. -/
structure Env where
  MP3Transcoder : Transcoder
  WAVTranscoder : Transcoder
  FlacTranscoder : Transcoder
  VorbisTranscoder : Transcoder
  /-- The function `WAVTranscoder::Encode(DecodedAudioInfo, EncodedAudioInfo, Format)`. -/
  WAVTranscoder_Encode :
    FDecodedAudioStruct → FEncodedAudioStruct → FWAVEncodingFormat → Bool × FEncodedAudioStruct
  /-- The function `VorbisTranscoder::Encode(DecodedAudioInfo, EncodedAudioInfo, Quality)`. -/
  VorbisTranscoder_Encode :
    FDecodedAudioStruct → FEncodedAudioStruct → Byte → Bool × FEncodedAudioStruct
  /-- The function `WAVTranscoder::CheckAndFixWavDurationErrors(WavData)`: the flag and the
  buffer it leaves behind. -/
  WAVTranscoder_CheckAndFixWavDurationErrors : Buffer → Bool × Buffer
  /-- The template `RAWTranscoder::TranscodeRAWData<From, To>` on a pointer/size pair;
  `none` is a null result pointer. -/
  RAWTranscoder_TranscodeRAWData : ERAWAudioFormat → ERAWAudioFormat → Buffer → Option Buffer
  /-- The template `RAWTranscoder::TranscodeRAWData<From, To>` on arrays: the
  contents it leaves in the output array. -/
  RAWTranscoder_TranscodeRAWData_Array : ERAWAudioFormat → ERAWAudioFormat → Buffer → Buffer
  /-- The engine call `FPaths::GetExtension(FilePath, false)`. -/
  GetExtension : String → String
  /-- The engine call `FString::ToLower`. -/
  ToLower : String → String
  /-- The engine call `FPaths::FileExists`. -/
  FileExists : String → Bool
  /-- The engine call `FFileHelper::LoadFileToArray`; `none` when it returns false. -/
  LoadFileToArray : String → Option Buffer
  /-- The engine call `FFileHelper::SaveArrayToFile`: the returned flag. -/
  SaveArrayToFile : Buffer → String → Bool
  /-- The engine call `NewObject<UImportedSoundWave>()`; `none` is a null pointer. -/
  NewImportedSoundWave : Option UImportedSoundWave
  /-- The outcome of the n-th evaluation of `ThisPtr.IsValid()`. -/
  IsValid : Nat → Bool
  /-- Whether `OnProgress.IsBound()`. -/
  OnProgress_IsBound : Bool
  /-- Whether `OnProgressNative.IsBound()`. -/
  OnProgressNative_IsBound : Bool
  /-- Whether `OnResult.IsBound()`. -/
  OnResult_IsBound : Bool
  /-- Whether `OnResultNative.IsBound()`. -/
  OnResultNative_IsBound : Bool

/-- The state threaded through a run: how many liveness checks were made and
what was observed so far. -/
structure Run where
  checks : Nat := 0
  trace : List Event := []

/-- Append one event to the trace. -/
def Run.log (s : Run) (e : Event) : Run :=
  { s with trace := s.trace ++ [e] }

/-- Evaluate `ThisPtr.IsValid()`: ask the oracle and advance the counter. -/
def Run.checkValid (env : Env) (s : Run) : Bool × Run :=
  (env.IsValid s.checks, { s with checks := s.checks + 1 })

/-! ## Format detection -/

/-- The function `URuntimeAudioImporterLibrary::GetAudioFormat(const FString& FilePath)`. -/
def GetAudioFormat (env : Env) (FilePath : String) : EAudioFormat :=
  let Extension := env.ToLower (env.GetExtension FilePath)
  if Extension = "mp3" then EAudioFormat.Mp3
  else if Extension = "wav" ∨ Extension = "wave" then EAudioFormat.Wav
  else if Extension = "flac" then EAudioFormat.Flac
  else if Extension = "ogg" ∨ Extension = "oga" ∨ Extension = "sb0" then EAudioFormat.OggVorbis
  else EAudioFormat.Invalid

/-- The function `URuntimeAudioImporterLibrary::GetAudioFormat(const uint8* AudioData, int32 AudioDataSize)`. -/
def GetAudioFormat_AudioData (env : Env) (AudioData : Buffer) : EAudioFormat :=
  if env.MP3Transcoder.CheckAudioFormat AudioData then EAudioFormat.Mp3
  else if env.WAVTranscoder.CheckAudioFormat AudioData then EAudioFormat.Wav
  else if env.FlacTranscoder.CheckAudioFormat AudioData then EAudioFormat.Flac
  else if env.VorbisTranscoder.CheckAudioFormat AudioData then EAudioFormat.OggVorbis
  else EAudioFormat.Invalid

/-- The function `URuntimeAudioImporterLibrary::GetAudioFormatAdvanced`. -/
def GetAudioFormatAdvanced (env : Env) (AudioData : Buffer) : EAudioFormat :=
  GetAudioFormat_AudioData env AudioData

/-! ## Decode / encode dispatch -/

/-- The function `URuntimeAudioImporterLibrary::DecodeAudioData`. The result is the returned
flag, then `EncodedAudioInfo` and `DecodedAudioInfo` as the call leaves them. -/
def DecodeAudioData (env : Env) (EncodedAudioInfo : FEncodedAudioStruct)
    (DecodedAudioInfo : FDecodedAudioStruct) (s : Run) :
    Bool × FEncodedAudioStruct × FDecodedAudioStruct × Run :=
  let EncodedAudioInfo : FEncodedAudioStruct :=
    if EncodedAudioInfo.AudioFormat = EAudioFormat.Auto then
      { EncodedAudioInfo with
        AudioFormat := GetAudioFormat_AudioData env EncodedAudioInfo.AudioData }
    else EncodedAudioInfo
  match EncodedAudioInfo.AudioFormat with
  | EAudioFormat.Mp3 =>
    let r := env.MP3Transcoder.Decode EncodedAudioInfo DecodedAudioInfo
    let s := s.log (Event.Decode EAudioFormat.Mp3)
    if !r.1 then (false, EncodedAudioInfo, r.2, s) else (true, EncodedAudioInfo, r.2, s)
  | EAudioFormat.Wav =>
    let r := env.WAVTranscoder.Decode EncodedAudioInfo DecodedAudioInfo
    let s := s.log (Event.Decode EAudioFormat.Wav)
    if !r.1 then (false, EncodedAudioInfo, r.2, s) else (true, EncodedAudioInfo, r.2, s)
  | EAudioFormat.Flac =>
    let r := env.FlacTranscoder.Decode EncodedAudioInfo DecodedAudioInfo
    let s := s.log (Event.Decode EAudioFormat.Flac)
    if !r.1 then (false, EncodedAudioInfo, r.2, s) else (true, EncodedAudioInfo, r.2, s)
  | EAudioFormat.OggVorbis =>
    let r := env.VorbisTranscoder.Decode EncodedAudioInfo DecodedAudioInfo
    let s := s.log (Event.Decode EAudioFormat.OggVorbis)
    if !r.1 then (false, EncodedAudioInfo, r.2, s) else (true, EncodedAudioInfo, r.2, s)
  | _ => (false, EncodedAudioInfo, DecodedAudioInfo, s)

/-- The function `URuntimeAudioImporterLibrary::EncodeAudioData`. The result is the returned
flag and `EncodedAudioInfo` as the call leaves it. In the `Mp3` and `Flac`
cases the source logs an error and leaves the `switch` with `break`, reaching
the final `return true`. -/
def EncodeAudioData (env : Env) (DecodedAudioInfo : FDecodedAudioStruct)
    (EncodedAudioInfo : FEncodedAudioStruct) (Quality : Byte) (s : Run) :
    Bool × FEncodedAudioStruct × Run :=
  if EncodedAudioInfo.AudioFormat = EAudioFormat.Auto
      ∨ EncodedAudioInfo.AudioFormat = EAudioFormat.Invalid then
    (false, EncodedAudioInfo, s)
  else
    match EncodedAudioInfo.AudioFormat with
    | EAudioFormat.Mp3 => (true, EncodedAudioInfo, s)
    | EAudioFormat.Wav =>
      let r := env.WAVTranscoder_Encode DecodedAudioInfo EncodedAudioInfo
        ⟨EWAVEncodingFormat.FORMAT_IEEE_FLOAT, 32⟩
      let s := s.log (Event.Encode EAudioFormat.Wav)
      if !r.1 then (false, r.2, s) else (true, r.2, s)
    | EAudioFormat.Flac => (true, EncodedAudioInfo, s)
    | EAudioFormat.OggVorbis =>
      let r := env.VorbisTranscoder_Encode DecodedAudioInfo EncodedAudioInfo Quality
      let s := s.log (Event.Encode EAudioFormat.OggVorbis)
      if !r.1 then (false, r.2, s) else (true, r.2, s)
    | _ => (false, EncodedAudioInfo, s)

/-! ## Notification -/

/-- The function `URuntimeAudioImporterLibrary::OnProgress_Internal`: the call
is recorded, then the game-thread task re-validates the owner and broadcasts to
the bound delegates. -/
def OnProgress_Internal (env : Env) (Percentage : Int) (s : Run) : Run :=
  let s := s.log (Event.OnProgress_Internal Percentage)
  let (valid, s) := s.checkValid env
  if !valid then s
  else
    let s := if env.OnProgress_IsBound then s.log (Event.OnProgress_Broadcast Percentage) else s
    let s :=
      if env.OnProgressNative_IsBound then s.log (Event.OnProgressNative_Broadcast Percentage)
      else s
    s

/-- The function `URuntimeAudioImporterLibrary::OnResult_Internal`: the call is
recorded, then the game-thread task re-validates the owner and broadcasts to
the bound delegates. -/
def OnResult_Internal (env : Env) (SoundWaveRef : Option UImportedSoundWave)
    (Status : ETranscodingStatus) (s : Run) : Run :=
  let s := s.log (Event.OnResult_Internal SoundWaveRef Status)
  let (valid, s) := s.checkValid env
  if !valid then s
  else
    let s :=
      if env.OnResultNative_IsBound then s.log (Event.OnResultNative_Broadcast SoundWaveRef Status)
      else s
    let s :=
      if env.OnResult_IsBound then s.log (Event.OnResult_Broadcast SoundWaveRef Status)
      else s
    s

/-! ## Building the sound wave -/

/-- The function `URuntimeAudioImporterLibrary::CreateImportedSoundWave`. -/
def CreateImportedSoundWave (env : Env) : Option UImportedSoundWave :=
  env.NewImportedSoundWave

/-- The function `URuntimeAudioImporterLibrary::FillSoundWaveBasicInfo`. -/
def FillSoundWaveBasicInfo (SoundWaveRef : UImportedSoundWave)
    (DecodedAudioInfo : FDecodedAudioStruct) : UImportedSoundWave :=
  let w : UImportedSoundWave :=
    { SoundWaveRef with
      Duration := DecodedAudioInfo.SoundWaveBasicInfo.Duration
      SampleRate := DecodedAudioInfo.SoundWaveBasicInfo.SampleRate
      SamplingRate := DecodedAudioInfo.SoundWaveBasicInfo.SampleRate
      NumChannels := DecodedAudioInfo.SoundWaveBasicInfo.NumOfChannels }
  let w : UImportedSoundWave := if w.NumChannels = 4 then { w with bIsAmbisonics := true } else w
  { w with bProcedural := true }

/-- The function `URuntimeAudioImporterLibrary::FillPCMData`. -/
def FillPCMData (SoundWaveRef : UImportedSoundWave)
    (DecodedAudioInfo : FDecodedAudioStruct) : UImportedSoundWave :=
  { SoundWaveRef with
    PCMBufferInfo := DecodedAudioInfo.PCMInfo
    RawPCMDataSize := DecodedAudioInfo.PCMInfo.PCMData.length }

/-- The function `URuntimeAudioImporterLibrary::DefineSoundWave`. -/
def DefineSoundWave (env : Env) (SoundWaveRef : UImportedSoundWave)
    (DecodedAudioInfo : FDecodedAudioStruct) (s : Run) : UImportedSoundWave × Run :=
  let s := OnProgress_Internal env 70 s
  let w := FillSoundWaveBasicInfo SoundWaveRef DecodedAudioInfo
  let s := OnProgress_Internal env 75 s
  let w := FillPCMData w DecodedAudioInfo
  let s := OnProgress_Internal env 95 s
  (w, s)

/-- The function `URuntimeAudioImporterLibrary::ImportAudioFromDecodedInfo`. -/
def ImportAudioFromDecodedInfo (env : Env) (DecodedAudioInfo : FDecodedAudioStruct)
    (s : Run) : Run :=
  match CreateImportedSoundWave env with
  | none => OnResult_Internal env none ETranscodingStatus.SoundWaveDeclarationError s
  | some SoundWaveRef =>
    let (w, s) := DefineSoundWave env SoundWaveRef DecodedAudioInfo s
    let s := OnProgress_Internal env 100 s
    OnResult_Internal env (some w) ETranscodingStatus.SuccessfulImport s

/-! ## Binary32 arithmetic of the duration -/

/-- The number of binary digits of a natural number below `2 ^ fuel`. -/
def binaryLength : Nat → Nat → Nat
  | 0, _ => 0
  | fuel + 1, n => if n = 0 then 0 else binaryLength fuel (n / 2) + 1

/-- The value of `static_cast<float>(a)` for an integer `0 ≤ a < 2^32`: `a`
rounded to 24 significant binary digits, to nearest, ties to even. -/
def roundToFloat32 (a : Nat) : Nat :=
  let n := binaryLength 32 a
  if n ≤ 24 then a
  else
    let q := a / 2 ^ (n - 24)
    let rest := a % 2 ^ (n - 24)
    let half := 2 ^ (n - 25)
    let q := if half < rest ∨ (rest = half ∧ q % 2 = 1) then q + 1 else q
    q * 2 ^ (n - 24)

/-- The binary32 bit pattern of the quotient `a / b` of two positive integers
up to `2^32`, rounded to nearest, ties to even: the quotient is taken with 56
binary places and a flag for a non-zero remainder, then cut to 24 significant
digits. The result is a normal number, so neither overflow nor underflow
arises. -/
def float32QuotientBits (a b : Nat) : Nat :=
  let Q := a * 2 ^ 56 / b
  let sticky : Bool := decide (a * 2 ^ 56 % b ≠ 0)
  let L := binaryLength 96 Q
  let m := Q / 2 ^ (L - 24)
  let rest := Q % 2 ^ (L - 24)
  let half := 2 ^ (L - 25)
  let m := if half < rest ∨ (rest = half ∧ (sticky = true ∨ m % 2 = 1)) then m + 1 else m
  if m = 2 ^ 24 then (L + 71) * 2 ^ 23 else (L + 70) * 2 ^ 23 + (m - 2 ^ 23)

/-- The binary32 bit pattern of `static_cast<float>(Numerator) / Divisor` for a
`uint32` numerator and an `int32` divisor: both are converted to binary32 and
divided in binary32. A zero divisor gives an infinity, or a NaN for `0 / 0`
(the quiet NaN `0x7FC00000` stands for whichever NaN the platform produces). -/
def float32Quotient (Numerator : Nat) (Divisor : Int) : Nat :=
  if Divisor = 0 then (if Numerator = 0 then 0x7FC00000 else 0x7F800000)
  else if Numerator = 0 then (if Divisor < 0 then 0x80000000 else 0)
  else
    (if Divisor < 0 then 2 ^ 31 else 0)
      + float32QuotientBits (roundToFloat32 Numerator) (roundToFloat32 Divisor.natAbs)

/-- Whether a binary32 bit pattern is a finite number (not an infinity or a
NaN). -/
def float32IsFinite (bits : Nat) : Bool :=
  decide (bits / 2 ^ 23 % 256 ≠ 255)

/-- The rational value of a finite binary32 bit pattern. -/
def float32Value (bits : Nat) : ℚ :=
  let sign : ℚ := if bits / 2 ^ 31 % 2 = 1 then -1 else 1
  let e : Nat := bits / 2 ^ 23 % 256
  let m : Nat := bits % 2 ^ 23
  if e = 0 then sign * (m : ℚ) / 2 ^ 149
  else sign * ((2 ^ 23 + m : Nat) : ℚ) * 2 ^ e / 2 ^ 150

/-- The `DecodedAudioInfo` that `ImportAudioFromFloat32Buffer` fills in:
`PCMDataSize / sizeof(float) / NumOfChannels` is computed in `size_t` (the
`int32` channel count converted modulo `2^64`) and stored in the `uint32` frame
count, and the duration is `static_cast<float>(PCMNumOfFrames) / SampleRate` in
binary32. With a zero divisor the integer division is undefined in C++ and the
process stops: there is no structure, `none`. -/
def Float32BufferDecodedInfo (PCMData : Buffer) (SampleRate : Int) (NumOfChannels : Int) :
    Option FDecodedAudioStruct :=
  if (NumOfChannels % 2 ^ 64).toNat = 0 then none
  else
    let PCMNumOfFrames : Nat :=
      (PCMData.length / 4 / (NumOfChannels % 2 ^ 64).toNat) % 2 ^ 32
    some
      { PCMInfo := { PCMData := PCMData, PCMNumOfFrames := PCMNumOfFrames }
        SoundWaveBasicInfo :=
          { NumOfChannels := NumOfChannels
            SampleRate := SampleRate
            Duration := float32Quotient PCMNumOfFrames SampleRate } }

/-- The function `URuntimeAudioImporterLibrary::ImportAudioFromFloat32Buffer`:
the decoded structure is filled in, progress `50` is reported and the import
is finalised. When filling in stops the process (a zero channel count), nothing
further is recorded. -/
def ImportAudioFromFloat32Buffer (env : Env) (PCMData : Buffer) (SampleRate : Int)
    (NumOfChannels : Int) (s : Run) : Run :=
  match Float32BufferDecodedInfo PCMData SampleRate NumOfChannels with
  | none => s
  | some DecodedAudioInfo =>
    let s := OnProgress_Internal env 50 s
    ImportAudioFromDecodedInfo env DecodedAudioInfo s

/-! ## Import entry points -/

/-- The function `LoadAudioFileToArray`: the file contents without their last
two bytes, or `none` when loading fails. On contents shorter than two bytes,
where `RemoveAt(Num() - 2, 2)` is out of range in C++, the result is empty. -/
def LoadAudioFileToArray (env : Env) (FilePath : String) : Option Buffer :=
  match env.LoadFileToArray FilePath with
  | none => none
  | some AudioData => some (AudioData.take (AudioData.length - 2))

/-- The function `URuntimeAudioImporterLibrary::ImportAudioFromBuffer`: the
synchronous prologue, then the background task, then the game-thread task. -/
def ImportAudioFromBuffer (env : Env) (AudioData : Buffer) (AudioFormat : EAudioFormat)
    (s : Run) : Run :=
  if AudioFormat = EAudioFormat.Wav
      ∧ (env.WAVTranscoder_CheckAndFixWavDurationErrors AudioData).1 = false then s
  else
    let AudioData :=
      if AudioFormat = EAudioFormat.Wav then
        (env.WAVTranscoder_CheckAndFixWavDurationErrors AudioData).2
      else AudioData
    let AudioFormat :=
      if AudioFormat = EAudioFormat.Auto then GetAudioFormat_AudioData env AudioData
      else AudioFormat
    let (valid, s) := s.checkValid env
    if !valid then s
    else
      let s := OnProgress_Internal env 5 s
      if AudioFormat = EAudioFormat.Invalid then
        OnResult_Internal env none ETranscodingStatus.InvalidAudioFormat s
      else
        let EncodedAudioInfo : FEncodedAudioStruct :=
          { AudioData := AudioData, AudioFormat := AudioFormat }
        let s := OnProgress_Internal env 10 s
        let (ok, _, DecodedAudioInfo, s) := DecodeAudioData env EncodedAudioInfo {} s
        if !ok then
          OnResult_Internal env none ETranscodingStatus.FailedToReadAudioDataArray s
        else
          let s := OnProgress_Internal env 65 s
          let (valid, s) := s.checkValid env
          if valid then ImportAudioFromDecodedInfo env DecodedAudioInfo s else s

/-- The function `URuntimeAudioImporterLibrary::ImportAudioFromFile`. -/
def ImportAudioFromFile (env : Env) (FilePath : String) (Format : EAudioFormat)
    (s : Run) : Run :=
  if !env.FileExists FilePath then
    OnResult_Internal env none ETranscodingStatus.AudioDoesNotExist s
  else
    let Format := if Format = EAudioFormat.Auto then GetAudioFormat env FilePath else Format
    let Format := if Format = EAudioFormat.Invalid then EAudioFormat.Auto else Format
    match LoadAudioFileToArray env FilePath with
    | none => OnResult_Internal env none ETranscodingStatus.LoadFileToArrayError s
    | some AudioBuffer => ImportAudioFromBuffer env AudioBuffer Format s

/-- The function `URuntimeAudioImporterLibrary::ImportAudioFromRAWBuffer`. The
pair `PCMData`, `PCMDataSize` is one optional buffer: `none` for a null pointer,
the size being the length. -/
def ImportAudioFromRAWBuffer (env : Env) (RAWBuffer : Buffer) (Format : ERAWAudioFormat)
    (SampleRate : Int) (NumOfChannels : Int) (s : Run) : Run :=
  let PCM : Option Buffer :=
    match Format with
    | ERAWAudioFormat.Int16 =>
      env.RAWTranscoder_TranscodeRAWData ERAWAudioFormat.Int16 ERAWAudioFormat.Float32 RAWBuffer
    | ERAWAudioFormat.Int32 =>
      env.RAWTranscoder_TranscodeRAWData ERAWAudioFormat.Int32 ERAWAudioFormat.Float32 RAWBuffer
    | ERAWAudioFormat.UInt8 =>
      env.RAWTranscoder_TranscodeRAWData ERAWAudioFormat.UInt8 ERAWAudioFormat.Float32 RAWBuffer
    | ERAWAudioFormat.Float32 => some RAWBuffer
  match PCM with
  | none => OnResult_Internal env none ETranscodingStatus.FailedToReadAudioDataArray s
  | some PCMData =>
    if PCMData.length ≤ 0 then
      OnResult_Internal env none ETranscodingStatus.FailedToReadAudioDataArray s
    else ImportAudioFromFloat32Buffer env PCMData SampleRate NumOfChannels s

/-- The function `URuntimeAudioImporterLibrary::ImportAudioFromRAWFile`. -/
def ImportAudioFromRAWFile (env : Env) (FilePath : String) (Format : ERAWAudioFormat)
    (SampleRate : Int) (NumOfChannels : Int) (s : Run) : Run :=
  if !env.FileExists FilePath then
    OnResult_Internal env none ETranscodingStatus.AudioDoesNotExist s
  else
    let s := OnProgress_Internal env 5 s
    match LoadAudioFileToArray env FilePath with
    | none => OnResult_Internal env none ETranscodingStatus.LoadFileToArrayError s
    | some AudioBuffer =>
      let s := OnProgress_Internal env 35 s
      let (valid, s) := s.checkValid env
      if valid then ImportAudioFromRAWBuffer env AudioBuffer Format SampleRate NumOfChannels s
      else s

/-! ## Export entry points -/

/-- A delegate: unbound (`none`) or bound to a callback acting on the run. -/
abbrev Delegate (α : Type) := Option (α → Run → Run)

/-- The delegate method `ExecuteIfBound`. -/
def ExecuteIfBound {α : Type} (d : Delegate α) (a : α) (s : Run) : Run :=
  match d with
  | none => s
  | some f => f a s

/-- The function `URuntimeAudioImporterLibrary::ExportSoundWaveToBuffer`
(native-delegate overload). `ImporterSoundWave` is `none` when the pointer
fails `IsValid`. -/
def ExportSoundWaveToBuffer (env : Env) (ImporterSoundWave : Option UImportedSoundWave)
    (AudioFormat : EAudioFormat) (Quality : Byte) (Result : Delegate (Bool × Buffer))
    (s : Run) : Run :=
  let ExecuteResult := fun (bSucceed : Bool) (AudioData : Buffer) (s : Run) =>
    ExecuteIfBound Result (bSucceed, AudioData) s
  match ImporterSoundWave with
  | none => ExecuteResult false [] s
  | some w =>
    let DecodedAudioInfo : FDecodedAudioStruct :=
      { PCMInfo := w.PCMBufferInfo
        SoundWaveBasicInfo :=
          { NumOfChannels := w.NumChannels
            SampleRate := w.SamplingRate
            Duration := w.Duration } }
    let EncodedAudioInfo : FEncodedAudioStruct := { AudioFormat := AudioFormat }
    let (ok, EncodedAudioInfo, s) := EncodeAudioData env DecodedAudioInfo EncodedAudioInfo Quality s
    if !ok then ExecuteResult false [] s
    else ExecuteResult true EncodedAudioInfo.AudioData s

/-- The function `URuntimeAudioImporterLibrary::ExportSoundWaveToFile`
(native-delegate overload). -/
def ExportSoundWaveToFile (env : Env) (ImporterSoundWave : Option UImportedSoundWave)
    (SavePath : String) (AudioFormat : EAudioFormat) (Quality : Byte) (Result : Delegate Bool)
    (s : Run) : Run :=
  ExportSoundWaveToBuffer env ImporterSoundWave AudioFormat Quality
    (some (fun (r : Bool × Buffer) (s : Run) =>
      if !r.1 then s
      else
        let saved := env.SaveArrayToFile r.2 SavePath
        let s := s.log (Event.SaveArrayToFile r.2 SavePath)
        if !saved then ExecuteIfBound Result false s
        else ExecuteIfBound Result true s))
    s

/-! ## RAW transcoding -/

/-- The function `URuntimeAudioImporterLibrary::TranscodeRAWDataFromBuffer`
(native-delegate overload): every format is first transcoded to unsigned 8-bit
PCM, the intermediate, and from there to the requested format; `UInt8` on
either side is a plain copy. -/
def TranscodeRAWDataFromBuffer (env : Env) (RAWData_From : Buffer)
    (FormatFrom FormatTo : ERAWAudioFormat) (Result : Delegate (Bool × Buffer)) (s : Run) : Run :=
  let ExecuteResult := fun (bSucceed : Bool) (AudioData : Buffer) (s : Run) =>
    ExecuteIfBound Result (bSucceed, AudioData) s
  let IntermediateRAWBuffer : Buffer :=
    match FormatFrom with
    | ERAWAudioFormat.Int16 =>
      env.RAWTranscoder_TranscodeRAWData_Array ERAWAudioFormat.Int16 ERAWAudioFormat.UInt8
        RAWData_From
    | ERAWAudioFormat.Int32 =>
      env.RAWTranscoder_TranscodeRAWData_Array ERAWAudioFormat.Int32 ERAWAudioFormat.UInt8
        RAWData_From
    | ERAWAudioFormat.UInt8 => RAWData_From
    | ERAWAudioFormat.Float32 =>
      env.RAWTranscoder_TranscodeRAWData_Array ERAWAudioFormat.Float32 ERAWAudioFormat.UInt8
        RAWData_From
  let RAWData_To : Buffer :=
    match FormatTo with
    | ERAWAudioFormat.Int16 =>
      env.RAWTranscoder_TranscodeRAWData_Array ERAWAudioFormat.UInt8 ERAWAudioFormat.Int16
        IntermediateRAWBuffer
    | ERAWAudioFormat.Int32 =>
      env.RAWTranscoder_TranscodeRAWData_Array ERAWAudioFormat.UInt8 ERAWAudioFormat.Int32
        IntermediateRAWBuffer
    | ERAWAudioFormat.UInt8 => IntermediateRAWBuffer
    | ERAWAudioFormat.Float32 =>
      env.RAWTranscoder_TranscodeRAWData_Array ERAWAudioFormat.UInt8 ERAWAudioFormat.Float32
        IntermediateRAWBuffer
  ExecuteResult true RAWData_To s

/-- The reading of the conversion between two raw formats as two conversions
through the float32 normalized form: first to `Float32`, then from `Float32`. -/
def ConvertThroughFloat32 (env : Env) (RAWData_From : Buffer)
    (FormatFrom FormatTo : ERAWAudioFormat) : Buffer :=
  env.RAWTranscoder_TranscodeRAWData_Array ERAWAudioFormat.Float32 FormatTo
    (env.RAWTranscoder_TranscodeRAWData_Array FormatFrom ERAWAudioFormat.Float32 RAWData_From)

/-- One conversion step of `TranscodeRAWDataFromBuffer`: a copy when the two
formats are the same, the transcoder otherwise. -/
def convertOrCopy (env : Env) (From To : ERAWAudioFormat) (RAWData : Buffer) : Buffer :=
  if From = To then RAWData else env.RAWTranscoder_TranscodeRAWData_Array From To RAWData

/-! ### The RAW transcoder of the specification

`RAWTranscoder` is not part of `RuntimeAudioImporterLibrary.cpp`. The
definitions below follow section 4.1 of the specification: every integer sample
is rescaled linearly to the float32 range, and integer to integer conversions
go through that float32 form. A float32 sample is its IEEE 754 binary32 bit
pattern, stored little-endian like the integer samples. -/

/-- Modelled from the spec: the sample width in bytes of a raw format
(`RAWTranscoder` works sample by sample). -/
def sampleSize : ERAWAudioFormat → Nat
  | ERAWAudioFormat.Int16 => 2
  | ERAWAudioFormat.Int32 => 4
  | ERAWAudioFormat.UInt8 => 1
  | ERAWAudioFormat.Float32 => 4

/-- Modelled from the spec: the samples of a `RAWTranscoder` input of 1-byte
samples, as unsigned words. -/
def words1 : Buffer → List Nat
  | [] => []
  | a :: rest => a.val :: words1 rest

/-- Modelled from the spec: the samples of a `RAWTranscoder` input of 2-byte
little-endian samples, as unsigned words; an incomplete last sample is
dropped. -/
def words2 : Buffer → List Nat
  | a :: b :: rest => (a.val + 256 * b.val) :: words2 rest
  | _ => []

/-- Modelled from the spec: the samples of a `RAWTranscoder` input of 4-byte
little-endian samples, as unsigned words; an incomplete last sample is
dropped. -/
def words4 : Buffer → List Nat
  | a :: b :: c :: d :: rest =>
    (a.val + 256 * b.val + 65536 * c.val + 16777216 * d.val) :: words4 rest
  | _ => []

/-- Modelled from the spec: the samples of a `RAWTranscoder` input in the given
format, as unsigned words. -/
def rawWords : ERAWAudioFormat → Buffer → List Nat
  | ERAWAudioFormat.Int16 => words2
  | ERAWAudioFormat.Int32 => words4
  | ERAWAudioFormat.UInt8 => words1
  | ERAWAudioFormat.Float32 => words4

/-- Modelled from the spec: the `n` low-order bytes of a `RAWTranscoder` output
sample, little-endian. -/
def littleEndianBytes : Nat → Nat → Buffer
  | 0, _ => []
  | n + 1, v => ⟨v % 256, Nat.mod_lt _ (by decide)⟩ :: littleEndianBytes n (v / 256)

/-- Modelled from the spec: the bytes of a sequence of `RAWTranscoder` output
samples of the given width. -/
def encodeWords (Size : Nat) : List Nat → Buffer
  | [] => []
  | u :: rest => littleEndianBytes Size u ++ encodeWords Size rest

/-- Modelled from the spec: the number of binary digits of a natural number
below `2 ^ fuel` (used by the float32 rounding of `RAWTranscoder`). -/
def bitLength : Nat → Nat → Nat
  | 0, _ => 0
  | fuel + 1, n => if n = 0 then 0 else bitLength fuel (n / 2) + 1

/-- Modelled from the spec: the binary32 bit pattern of `v / 2 ^ k` computed in
float32 as `RAWTranscoder` normalises an integer sample (`|v| ≤ 2 ^ 31`,
`k ≤ 31`): the 24-bit significand nearest to `v`, ties to even. -/
def float32OfScaled (v : Int) (k : Nat) : Nat :=
  if v = 0 then 0
  else
    let a := v.natAbs
    let n := bitLength 32 a
    let r : Nat × Nat :=
      if n ≤ 24 then (a * 2 ^ (24 - n), n)
      else
        let q := a / 2 ^ (n - 24)
        let rest := a % 2 ^ (n - 24)
        let half := 2 ^ (n - 25)
        let q := if half < rest ∨ (rest = half ∧ q % 2 = 1) then q + 1 else q
        if q = 2 ^ 24 then (2 ^ 23, n + 1) else (q, n)
    (if v < 0 then 2 ^ 31 else 0) + (r.2 + 126 - k) * 2 ^ 23 + (r.1 - 2 ^ 23)

/-- Modelled from the spec: the signed value of a two's complement word of the
given number of bits (an integer sample read by `RAWTranscoder`). -/
def signedValue (Bits : Nat) (u : Nat) : Int :=
  if u < 2 ^ (Bits - 1) then (u : Int) else (u : Int) - 2 ^ Bits

/-- Modelled from the spec: the float32 normalized form of one sample of
`RAWTranscoder`: `(value - 128) / 128` for unsigned 8-bit, `value / 32768` for
signed 16-bit, `value / 2^31` for signed 32-bit, the sample itself for
float32. -/
def sampleToFloat32 : ERAWAudioFormat → Nat → Nat
  | ERAWAudioFormat.UInt8, u => float32OfScaled ((u : Int) - 128) 7
  | ERAWAudioFormat.Int16, u => float32OfScaled (signedValue 16 u) 15
  | ERAWAudioFormat.Int32, u => float32OfScaled (signedValue 32 u) 31
  | ERAWAudioFormat.Float32, u => u

/-- Modelled from the spec: the sample of the given format for a float32 value
in `RAWTranscoder`, the inverse rescale (`f * 128 + 128`, `f * 32768`,
`f * 2^31`; float32 unchanged, without clamping). The spec fixes neither the
rounding of a rescaled value that is no integer nor the result for a value
beyond the integer range; here it is rounded toward zero, as a C++ cast does,
and limited to the range, a non-finite pattern counting as beyond the range. -/
def float32ToSample (To : ERAWAudioFormat) (bits : Nat) : Nat :=
  let negative : Bool := decide (bits / 2 ^ 31 % 2 = 1)
  let e := bits / 2 ^ 23 % 256
  let m := bits % 2 ^ 23
  let sig := if e = 0 then m else 2 ^ 23 + m
  let magnitude := fun (k : Nat) =>
    let t := (if e = 0 then 1 else e) + k
    if 150 ≤ t then sig * 2 ^ (t - 150) else sig / 2 ^ (150 - t)
  let inexact := fun (k : Nat) =>
    let t := (if e = 0 then 1 else e) + k
    decide (t < 150 ∧ sig % 2 ^ (150 - t) ≠ 0)
  match To with
  | ERAWAudioFormat.UInt8 =>
    if negative then 128 - (magnitude 7 + (if inexact 7 then 1 else 0))
    else min 255 (128 + magnitude 7)
  | ERAWAudioFormat.Int16 =>
    if negative then 65536 - min 32768 (magnitude 15) else min 32767 (magnitude 15)
  | ERAWAudioFormat.Int32 =>
    if negative then 2 ^ 32 - min (2 ^ 31) (magnitude 31) else min (2 ^ 31 - 1) (magnitude 31)
  | ERAWAudioFormat.Float32 => bits

/-- Modelled from the spec: the conversion `RAWTranscoder::TranscodeRAWData`
between two raw formats (section 4.1): the identity when the formats are the
same, and otherwise, sample by sample, the float32 normalized form of the
source sample turned into a sample of the target format. -/
def RAWTranscoder_TranscodeRAWData_spec (From To : ERAWAudioFormat) (RAWData : Buffer) :
    Buffer :=
  if From = To then RAWData
  else
    encodeWords (sampleSize To)
      ((rawWords From RAWData).map fun u => float32ToSample To (sampleToFloat32 From u))

/-! ## A concrete environment

Used to evaluate the definitions on concrete inputs. -/

/-- The part of a character list after the last character satisfying `p`, if
there is one. -/
def afterLast (p : Char → Bool) : List Char → Option (List Char)
  | [] => none
  | c :: cs =>
    match afterLast p cs with
    | some r => some r
    | none => if p c then some cs else none

/-- A model of the engine call `FPaths::GetExtension(FilePath, false)`: the text
after the last dot of the last path component, empty when there is no dot. -/
def sampleGetExtension (FilePath : String) : String :=
  let Filename := (afterLast (fun c => c = '/' || c = '\\') FilePath.data).getD FilePath.data
  String.mk ((afterLast (fun c => c = '.') Filename).getD [])

/-- A model of the engine call `FString::ToLower`. -/
def sampleToLower (Text : String) : String :=
  String.mk (Text.data.map Char.toLower)

/-- A transcoder that recognises a magic number and decodes by handing the
bytes after it over as PCM data. -/
def sampleTranscoder (Magic : Buffer) : Transcoder where
  CheckAudioFormat := fun AudioData => decide (AudioData.take Magic.length = Magic)
  Decode := fun EncodedAudioInfo DecodedAudioInfo =>
    if EncodedAudioInfo.AudioData.take Magic.length = Magic then
      (true, { DecodedAudioInfo with
        PCMInfo := { PCMData := EncodedAudioInfo.AudioData.drop Magic.length } })
    else (false, DecodedAudioInfo)

/-- A concrete environment: magic-number transcoders, encoders that prepend the
magic number, an empty file system, an owner that stays alive and all four
delegates bound. -/
def sampleEnv : Env where
  MP3Transcoder := sampleTranscoder [0x49, 0x44, 0x33]
  WAVTranscoder := sampleTranscoder [0x52, 0x49, 0x46, 0x46]
  FlacTranscoder := sampleTranscoder [0x66, 0x4C, 0x61, 0x43]
  VorbisTranscoder := sampleTranscoder [0x4F, 0x67, 0x67, 0x53]
  WAVTranscoder_Encode := fun DecodedAudioInfo EncodedAudioInfo _ =>
    (true, { EncodedAudioInfo with
      AudioData := [0x52, 0x49, 0x46, 0x46] ++ DecodedAudioInfo.PCMInfo.PCMData })
  VorbisTranscoder_Encode := fun DecodedAudioInfo EncodedAudioInfo _ =>
    (true, { EncodedAudioInfo with
      AudioData := [0x4F, 0x67, 0x67, 0x53] ++ DecodedAudioInfo.PCMInfo.PCMData })
  WAVTranscoder_CheckAndFixWavDurationErrors := fun WavData =>
    (decide (WavData.take 4 = [0x52, 0x49, 0x46, 0x46]), WavData)
  RAWTranscoder_TranscodeRAWData := fun _ _ _ => none
  RAWTranscoder_TranscodeRAWData_Array := fun _ _ _ => []
  GetExtension := sampleGetExtension
  ToLower := sampleToLower
  FileExists := fun _ => false
  LoadFileToArray := fun _ => none
  SaveArrayToFile := fun _ _ => true
  NewImportedSoundWave := some {}
  IsValid := fun _ => true
  OnProgress_IsBound := true
  OnProgressNative_IsBound := true
  OnResult_IsBound := true
  OnResultNative_IsBound := true

/-- The same environment with an owner that is never alive. -/
def deadOwnerEnv : Env :=
  { sampleEnv with IsValid := fun _ => false }

/-- A bound export-to-file result delegate that records its invocation. -/
def recordExportToFile : Delegate Bool :=
  some (fun bSucceed s => s.log (Event.ExportToFileResult bSucceed))

/-- A bound export-to-buffer result delegate that records its invocation. -/
def recordExportToBuffer : Delegate (Bool × Buffer) :=
  some (fun r s => s.log (Event.ExportToBufferResult r.1 r.2))

/-- The sample environment with the RAW transcoder of the specification. -/
def rawEnv : Env :=
  { sampleEnv with
    RAWTranscoder_TranscodeRAWData := fun From To RAWData =>
      some (RAWTranscoder_TranscodeRAWData_spec From To RAWData)
    RAWTranscoder_TranscodeRAWData_Array := RAWTranscoder_TranscodeRAWData_spec }

/-- A bound RAW transcoding result delegate that records its invocation. -/
def recordTranscodeFromBuffer : Delegate (Bool × Buffer) :=
  some (fun r s => s.log (Event.TranscodeFromBufferResult r.1 r.2))

/-! ## The sequence of notifications of a run -/

/-- A call of `OnProgress_Internal` or of `OnResult_Internal`, the latter
reduced to its status. -/
inductive Notification where
  | Progress (Percentage : Int)
  | Result (Status : ETranscodingStatus)
  deriving DecidableEq

/-- The calls of `OnProgress_Internal` and `OnResult_Internal` recorded in a
trace, in order. -/
def notifications (t : List Event) : List Notification :=
  t.filterMap fun e =>
    match e with
    | Event.OnProgress_Internal p => some (Notification.Progress p)
    | Event.OnResult_Internal _ st => some (Notification.Result st)
    | _ => none

/-- The percentages reported, in order. -/
def progressValues (l : List Notification) : List Int :=
  l.filterMap fun n =>
    match n with
    | Notification.Progress p => some p
    | _ => none

/-- The statuses of the results issued, in order. -/
def resultStatuses (l : List Notification) : List ETranscodingStatus :=
  l.filterMap fun n =>
    match n with
    | Notification.Result st => some st
    | _ => none

/-- What follows the first result. -/
def afterFirstResult : List Notification → List Notification
  | [] => []
  | Notification.Result _ :: rest => rest
  | Notification.Progress _ :: rest => afterFirstResult rest

/-- The progress contract of one run: percentages are non-decreasing and within
`0..100`, no percentage is reported after a result, at most one result is
issued, and `100` is reported exactly when a result with status
`SuccessfulImport` is issued. -/
def ProgressContract (l : List Notification) : Prop :=
  (progressValues l).Pairwise (fun a b => a ≤ b)
    ∧ (∀ p ∈ progressValues l, 0 ≤ p ∧ p ≤ 100)
    ∧ progressValues (afterFirstResult l) = []
    ∧ (resultStatuses l).length ≤ 1
    ∧ (100 ∈ progressValues l ↔ ETranscodingStatus.SuccessfulImport ∈ resultStatuses l)

instance (l : List Notification) : Decidable (ProgressContract l) := by
  unfold ProgressContract
  infer_instance

/-- Whether an event is a broadcast to a subscriber delegate. -/
def Event.isBroadcast : Event → Bool
  | Event.OnProgress_Broadcast _ => true
  | Event.OnProgressNative_Broadcast _ => true
  | Event.OnResultNative_Broadcast _ _ => true
  | Event.OnResult_Broadcast _ _ => true
  | _ => false

/-- The subscriber callbacks executed in a trace. -/
def broadcasts (t : List Event) : List Event :=
  t.filter Event.isBroadcast

/-- The sample environment with one readable file, `Music/Track.ogg`, whose
contents carry the `fLaC` magic number. -/
def oneFileEnv : Env :=
  { sampleEnv with
    FileExists := fun FilePath => decide (FilePath = "Music/Track.ogg")
    LoadFileToArray := fun FilePath =>
      if FilePath = "Music/Track.ogg" then some [0x66, 0x4C, 0x61, 0x43, 1, 2, 3, 4, 0, 0]
      else none }

/-! ## Formatting a duration -/

/-- The decimal digits of a natural number, most significant first. -/
def decimalChars (n : Nat) : List Char :=
  if n = 0 then ['0'] else (Nat.digits 10 n).reverse.map Nat.digitChar

/-- A model of the engine call `FString::FromInt`: the decimal representation,
with a leading minus sign for a negative number. -/
def FString_FromInt (Num : Int) : String :=
  if Num < 0 then "-" ++ String.mk (decimalChars Num.natAbs)
  else String.mk (decimalChars Num.toNat)

/-- The function `URuntimeAudioImporterLibrary::ConvertSecondsToString`; the
C++ `/` and `%` on `int32` round toward zero. -/
def ConvertSecondsToString (Seconds : Int) : String :=
  let FinalString : String := ""
  let NewHours : Int := Seconds.tdiv 3600
  let FinalString : String :=
    if NewHours > 0 then
      FinalString
        ++ ((if NewHours < 10 then "0" ++ FString_FromInt NewHours
            else FString_FromInt NewHours) ++ ":")
    else FinalString
  let Seconds : Int := Seconds.tmod 3600
  let NewMinutes : Int := Seconds.tdiv 60
  let FinalString : String :=
    FinalString
      ++ ((if NewMinutes < 10 then "0" ++ FString_FromInt NewMinutes
          else FString_FromInt NewMinutes) ++ ":")
  let NewSeconds : Int := Seconds.tmod 60
  let FinalString : String :=
    FinalString
      ++ (if NewSeconds < 10 then "0" ++ FString_FromInt NewSeconds
          else FString_FromInt NewSeconds)
  FinalString

/-- A decimal value left-padded with zeros to at least two digits. -/
def padTwo (n : Nat) : String :=
  String.mk (List.replicate (2 - (decimalChars n).length) '0' ++ decimalChars n)

/-- The characters the code writes for one field: a zero in front of a value
below ten. -/
def fieldChars (n : Nat) : List Char :=
  if n < 10 then '0' :: decimalChars n else decimalChars n

/-- The natural number written by a list of decimal digit characters. -/
def charsValue (l : List Char) : Nat :=
  Nat.ofDigits 10 (l.map fun c => c.toNat - 48).reverse

end RuntimeAudioImporter

/-! # Protocol Buffers: `UnknownFieldSet::DeleteByNumber`

A shallow embedding of the part of `unknown_field_set.cc` that deletes the
unknown fields of one number. A field is a value: the string or group a field
owns through a pointer is held by the field itself, so `UnknownField::Delete`,
which only frees what the deleted field owns, changes nothing in the vector.
-/

namespace lotus.google.protobuf

/-- The class `UnknownField`: the field number with the payload selected by the
type tag (`TYPE_VARINT`, `TYPE_FIXED32`, `TYPE_FIXED64`,
`TYPE_LENGTH_DELIMITED`, `TYPE_GROUP`). A group holds the `fields_` of its
`UnknownFieldSet`. -/
inductive UnknownField where
  | varint (number_ : Int) (varint_ : Nat)
  | fixed32 (number_ : Int) (fixed32_ : Nat)
  | fixed64 (number_ : Int) (fixed64_ : Nat)
  | length_delimited (number_ : Int) (string_value_ : List (Fin 256))
  | group (number_ : Int) (group_ : Option (List UnknownField))

/-- The accessor `UnknownField::number()`. -/
def UnknownField.number : UnknownField → Int
  | UnknownField.varint n _ => n
  | UnknownField.fixed32 n _ => n
  | UnknownField.fixed64 n _ => n
  | UnknownField.length_delimited n _ => n
  | UnknownField.group n _ => n

/-- The class `UnknownFieldSet`: the pointer `fields_` to a vector of fields,
`none` when it is `NULL`. -/
structure UnknownFieldSet where
  fields_ : Option (List UnknownField)

/-- The accessor `UnknownFieldSet::field_count()`. -/
def UnknownFieldSet.field_count (self : UnknownFieldSet) : Nat :=
  match self.fields_ with
  | none => 0
  | some fields => fields.length

/-- The `for` loop of `UnknownFieldSet::DeleteByNumber`, from index `i` with
`left` fields kept so far. The result is the final `left` and the vector.
`fuel` counts the remaining iterations: started with the size of the vector at
index `0`, it is used up exactly when `i` reaches the size, where the loop
condition fails. -/
def UnknownFieldSet.DeleteByNumber_loop (number : Int) :
    Nat → Nat → Nat → List UnknownField → Nat × List UnknownField
  | 0, _, left, fields => (left, fields)
  | fuel + 1, i, left, fields =>
    if h : i < fields.length then
      let field := fields[i]
      if field.number = number then
        UnknownFieldSet.DeleteByNumber_loop number fuel (i + 1) left fields
      else
        let fields := if i ≠ left then fields.set left field else fields
        UnknownFieldSet.DeleteByNumber_loop number fuel (i + 1) (left + 1) fields
    else (left, fields)

/-- The function `UnknownFieldSet::DeleteByNumber`: the loop over all indices,
`resize(left)`, and the release of the vector when nothing is left. -/
def UnknownFieldSet.DeleteByNumber (self : UnknownFieldSet) (number : Int) : UnknownFieldSet :=
  match self.fields_ with
  | none => self
  | some fields =>
    let r := UnknownFieldSet.DeleteByNumber_loop number fields.length 0 0 fields
    let left := r.1
    let fields := r.2.take left
    if left = 0 then { fields_ := none } else { fields_ := some fields }

end lotus.google.protobuf

namespace RuntimeAudioImporter

/-! ## Encode dispatch -/

/-- C1 (evaluation of the code): for every decoded audio value, buffer, quality
byte and run state, `EncodeAudioData` with target format `Mp3` or `Flac`
returns `true`, leaves the encoded output untouched and invokes no adapter;
consequently `ExportSoundWaveToBuffer` on a valid sound wave executes its result
delegate with `bSucceed = true` and an empty buffer. -/
theorem EncodeAudioData_Mp3_Flac_returns_true (env : Env)
    (DecodedAudioInfo : FDecodedAudioStruct) (AudioData : Buffer) (Quality : Byte)
    (w : UImportedSoundWave) (s : Run) :
    EncodeAudioData env DecodedAudioInfo ⟨AudioData, EAudioFormat.Mp3⟩ Quality s
        = (true, ⟨AudioData, EAudioFormat.Mp3⟩, s)
      ∧ EncodeAudioData env DecodedAudioInfo ⟨AudioData, EAudioFormat.Flac⟩ Quality s
        = (true, ⟨AudioData, EAudioFormat.Flac⟩, s)
      ∧ (ExportSoundWaveToBuffer env (some w) EAudioFormat.Mp3 Quality recordExportToBuffer
          s).trace = s.trace ++ [Event.ExportToBufferResult true []]
      ∧ (ExportSoundWaveToBuffer env (some w) EAudioFormat.Flac Quality recordExportToBuffer
          s).trace = s.trace ++ [Event.ExportToBufferResult true []] := by
  refine ⟨rfl, rfl, ?_, ?_⟩ <;>
    simp [ExportSoundWaveToBuffer, EncodeAudioData, ExecuteIfBound, recordExportToBuffer,
      Run.log]

/-- C2: for every decoded audio value, encoded structure, quality byte and run
state, `EncodeAudioData` with target format `Auto` or `Invalid` returns `false`,
hands back the encoded structure unchanged and leaves the trace unchanged (no
adapter `Encode` is invoked). -/
theorem EncodeAudioData_Auto_Invalid (env : Env) (DecodedAudioInfo : FDecodedAudioStruct)
    (EncodedAudioInfo : FEncodedAudioStruct) (Quality : Byte) (s : Run)
    (h : EncodedAudioInfo.AudioFormat = EAudioFormat.Auto
      ∨ EncodedAudioInfo.AudioFormat = EAudioFormat.Invalid) :
    EncodeAudioData env DecodedAudioInfo EncodedAudioInfo Quality s
      = (false, EncodedAudioInfo, s) := by
  unfold EncodeAudioData
  rw [if_pos h]

/-- Witness for `EncodeAudioData_Auto_Invalid` at format `Auto`. -/
theorem EncodeAudioData_Auto_Invalid_witness :
    ((⟨[1, 2], EAudioFormat.Auto⟩ : FEncodedAudioStruct).AudioFormat = EAudioFormat.Auto
      ∨ (⟨[1, 2], EAudioFormat.Auto⟩ : FEncodedAudioStruct).AudioFormat = EAudioFormat.Invalid)
    ∧ EncodeAudioData sampleEnv {} ⟨[1, 2], EAudioFormat.Auto⟩ 7 {}
      = (false, ⟨[1, 2], EAudioFormat.Auto⟩, {}) :=
  ⟨Or.inl rfl, EncodeAudioData_Auto_Invalid sampleEnv {} ⟨[1, 2], EAudioFormat.Auto⟩ 7 {}
    (Or.inl rfl)⟩

/-! ## Content detection -/

/-- Content detection never answers `Auto`. -/
theorem GetAudioFormat_AudioData_ne_Auto (env : Env) (AudioData : Buffer) :
    GetAudioFormat_AudioData env AudioData ≠ EAudioFormat.Auto := by
  unfold GetAudioFormat_AudioData
  split_ifs <;> simp

/-- C4: for every buffer and every choice of the four `CheckAudioFormat`
predicates, content detection returns `Mp3`, `Wav`, `Flac`, `OggVorbis` exactly
when that format's predicate accepts and every earlier one (in this order)
rejects, returns `Invalid` exactly when all four reject, and never returns
`Auto`. -/
theorem GetAudioFormat_AudioData_first_match (env : Env) (AudioData : Buffer) :
    (GetAudioFormat_AudioData env AudioData = EAudioFormat.Mp3
        ↔ env.MP3Transcoder.CheckAudioFormat AudioData = true)
      ∧ (GetAudioFormat_AudioData env AudioData = EAudioFormat.Wav
        ↔ env.MP3Transcoder.CheckAudioFormat AudioData = false
          ∧ env.WAVTranscoder.CheckAudioFormat AudioData = true)
      ∧ (GetAudioFormat_AudioData env AudioData = EAudioFormat.Flac
        ↔ env.MP3Transcoder.CheckAudioFormat AudioData = false
          ∧ env.WAVTranscoder.CheckAudioFormat AudioData = false
          ∧ env.FlacTranscoder.CheckAudioFormat AudioData = true)
      ∧ (GetAudioFormat_AudioData env AudioData = EAudioFormat.OggVorbis
        ↔ env.MP3Transcoder.CheckAudioFormat AudioData = false
          ∧ env.WAVTranscoder.CheckAudioFormat AudioData = false
          ∧ env.FlacTranscoder.CheckAudioFormat AudioData = false
          ∧ env.VorbisTranscoder.CheckAudioFormat AudioData = true)
      ∧ (GetAudioFormat_AudioData env AudioData = EAudioFormat.Invalid
        ↔ env.MP3Transcoder.CheckAudioFormat AudioData = false
          ∧ env.WAVTranscoder.CheckAudioFormat AudioData = false
          ∧ env.FlacTranscoder.CheckAudioFormat AudioData = false
          ∧ env.VorbisTranscoder.CheckAudioFormat AudioData = false)
      ∧ GetAudioFormat_AudioData env AudioData ≠ EAudioFormat.Auto := by
  unfold GetAudioFormat_AudioData
  cases env.MP3Transcoder.CheckAudioFormat AudioData <;>
    cases env.WAVTranscoder.CheckAudioFormat AudioData <;>
    cases env.FlacTranscoder.CheckAudioFormat AudioData <;>
    cases env.VorbisTranscoder.CheckAudioFormat AudioData <;>
    simp

/-! ## Decode dispatch -/

/-- C3: for every encoded structure, `DecodeAudioData` first replaces a format
of `Auto` by the result of content detection (the resolved format is never
`Auto`); it returns `true` exactly when the resolved format is one of `Mp3`,
`Wav`, `Flac`, `OggVorbis` and that format's `Decode` returns `true` on the
buffer; and the adapters it invokes are exactly the one of the resolved format
when that is one of the four, and none otherwise (in particular none, and
`false`, when the resolved format is `Invalid`). -/
theorem DecodeAudioData_dispatch (env : Env) (EncodedAudioInfo : FEncodedAudioStruct)
    (DecodedAudioInfo : FDecodedAudioStruct) (s : Run) :
    let Resolved : EAudioFormat :=
      if EncodedAudioInfo.AudioFormat = EAudioFormat.Auto then
        GetAudioFormat_AudioData env EncodedAudioInfo.AudioData
      else EncodedAudioInfo.AudioFormat
    let Encoded : FEncodedAudioStruct := ⟨EncodedAudioInfo.AudioData, Resolved⟩
    let r := DecodeAudioData env EncodedAudioInfo DecodedAudioInfo s
    Resolved ≠ EAudioFormat.Auto
      ∧ r.2.1 = Encoded
      ∧ (r.1 = true ↔
          (Resolved = EAudioFormat.Mp3
              ∧ (env.MP3Transcoder.Decode Encoded DecodedAudioInfo).1 = true)
            ∨ (Resolved = EAudioFormat.Wav
              ∧ (env.WAVTranscoder.Decode Encoded DecodedAudioInfo).1 = true)
            ∨ (Resolved = EAudioFormat.Flac
              ∧ (env.FlacTranscoder.Decode Encoded DecodedAudioInfo).1 = true)
            ∨ (Resolved = EAudioFormat.OggVorbis
              ∧ (env.VorbisTranscoder.Decode Encoded DecodedAudioInfo).1 = true))
      ∧ r.2.2.2.trace = s.trace ++
          (if Resolved = EAudioFormat.Mp3 ∨ Resolved = EAudioFormat.Wav
              ∨ Resolved = EAudioFormat.Flac ∨ Resolved = EAudioFormat.OggVorbis
            then [Event.Decode Resolved] else [])
      ∧ (Resolved = EAudioFormat.Invalid →
          r = (false, Encoded, DecodedAudioInfo, s)) := by
  have hne := GetAudioFormat_AudioData_ne_Auto env EncodedAudioInfo.AudioData
  obtain ⟨AudioData, AudioFormat⟩ := EncodedAudioInfo
  cases AudioFormat
  case Auto =>
    simp only [DecodeAudioData, if_true] at hne ⊢
    generalize GetAudioFormat_AudioData env AudioData = g at hne ⊢
    cases g
    case Auto => exact absurd rfl hne
    all_goals
      simp only []
      split_ifs <;> simp_all [Run.log]
  all_goals
    simp only [DecodeAudioData, reduceCtorEq, if_false]
    split_ifs <;> simp_all [Run.log]

/-- Witness for `DecodeAudioData_dispatch`: a buffer without any known magic
number and format `Auto` resolves to `Invalid`, so the call returns `false` and
changes nothing. -/
theorem DecodeAudioData_dispatch_witness :
    DecodeAudioData sampleEnv ⟨[1, 2, 3, 4], EAudioFormat.Auto⟩ {} {}
      = (false, ⟨[1, 2, 3, 4], EAudioFormat.Invalid⟩, {}, {}) :=
  (DecodeAudioData_dispatch sampleEnv ⟨[1, 2, 3, 4], EAudioFormat.Auto⟩ {} {}).2.2.2.2
    (by decide)

/-! ## Extension detection -/

/-- C5: for every file name, if its lowercased extension is `mp3`, `wav`,
`wave`, `flac`, `ogg` or `oga`, then extension detection returns `Mp3`, `Wav`,
`Wav`, `Flac`, `OggVorbis`, `OggVorbis` respectively; and any other file name
with the same lowercased extension gets the same format. -/
theorem GetAudioFormat_extension_table (env : Env) (FilePath : String) :
    (env.ToLower (env.GetExtension FilePath) = "mp3"
        → GetAudioFormat env FilePath = EAudioFormat.Mp3)
      ∧ (env.ToLower (env.GetExtension FilePath) = "wav"
        → GetAudioFormat env FilePath = EAudioFormat.Wav)
      ∧ (env.ToLower (env.GetExtension FilePath) = "wave"
        → GetAudioFormat env FilePath = EAudioFormat.Wav)
      ∧ (env.ToLower (env.GetExtension FilePath) = "flac"
        → GetAudioFormat env FilePath = EAudioFormat.Flac)
      ∧ (env.ToLower (env.GetExtension FilePath) = "ogg"
        → GetAudioFormat env FilePath = EAudioFormat.OggVorbis)
      ∧ (env.ToLower (env.GetExtension FilePath) = "oga"
        → GetAudioFormat env FilePath = EAudioFormat.OggVorbis)
      ∧ (∀ Other : String,
          env.ToLower (env.GetExtension Other) = env.ToLower (env.GetExtension FilePath)
            → GetAudioFormat env Other = GetAudioFormat env FilePath) := by
  refine ⟨?_, ?_, ?_, ?_, ?_, ?_, ?_⟩
  case refine_7 =>
    intro Other h
    simp only [GetAudioFormat, h]
  all_goals
    intro h
    simp only [GetAudioFormat, h]
    decide

/-- Witness for `GetAudioFormat_extension_table`: with the modelled engine
helpers, `Music/Track.MP3` is detected as `Mp3`, and `Music/Track.mp3`, which
differs only in the letter case of the extension, gets the same format. -/
theorem GetAudioFormat_extension_table_witness :
    GetAudioFormat sampleEnv "Music/Track.MP3" = EAudioFormat.Mp3
      ∧ GetAudioFormat sampleEnv "Music/Track.mp3"
        = GetAudioFormat sampleEnv "Music/Track.MP3" :=
  ⟨(GetAudioFormat_extension_table sampleEnv "Music/Track.MP3").1 (by decide),
    (GetAudioFormat_extension_table sampleEnv "Music/Track.MP3").2.2.2.2.2.2
      "Music/Track.mp3" (by decide)⟩

/-- C6 (counterexample): the lowercased extension of `Music/Track.sb0` is none
of `mp3`, `wav`, `wave`, `flac`, `ogg`, `oga`, yet extension detection returns
`OggVorbis`, not `Invalid`. -/
theorem GetAudioFormat_sb0_not_Invalid :
    sampleEnv.ToLower (sampleEnv.GetExtension "Music/Track.sb0")
        ∉ ["mp3", "wav", "wave", "flac", "ogg", "oga"]
      ∧ GetAudioFormat sampleEnv "Music/Track.sb0" = EAudioFormat.OggVorbis
      ∧ GetAudioFormat sampleEnv "Music/Track.sb0" ≠ EAudioFormat.Invalid := by
  decide

/-- C6 (amended): for every file name whose lowercased extension is none of
`mp3`, `wav`, `wave`, `flac`, `ogg`, `oga`, `sb0`, extension detection returns
`Invalid`; and a lowercased extension of `sb0` gives `OggVorbis`. -/
theorem GetAudioFormat_unknown_extension (env : Env) (FilePath : String)
    (h : env.ToLower (env.GetExtension FilePath)
      ∉ ["mp3", "wav", "wave", "flac", "ogg", "oga", "sb0"]) :
    GetAudioFormat env FilePath = EAudioFormat.Invalid
      ∧ ∀ Other : String, env.ToLower (env.GetExtension Other) = "sb0"
          → GetAudioFormat env Other = EAudioFormat.OggVorbis := by
  constructor
  · simp only [List.mem_cons, List.mem_singleton, List.not_mem_nil, or_false, not_or] at h
    obtain ⟨h1, h2, h3, h4, h5, h6, h7⟩ := h
    simp [GetAudioFormat, h1, h2, h3, h4, h5, h6, h7]
  · intro Other h'
    simp only [GetAudioFormat, h']
    decide

/-- Witness for `GetAudioFormat_unknown_extension`: a name without extension
(the dot belongs to a directory) is `Invalid`. -/
theorem GetAudioFormat_unknown_extension_witness :
    sampleEnv.ToLower (sampleEnv.GetExtension "Music.wav/Track")
        ∉ ["mp3", "wav", "wave", "flac", "ogg", "oga", "sb0"]
      ∧ GetAudioFormat sampleEnv "Music.wav/Track" = EAudioFormat.Invalid :=
  ⟨by decide, (GetAudioFormat_unknown_extension sampleEnv "Music.wav/Track" (by decide)).1⟩

/-! ## Terminal delivery -/

/-- C7 (evaluation of the code): when the format hint is `Wav` and
`CheckAndFixWavDurationErrors` rejects the buffer, `ImportAudioFromBuffer`
returns at once. With an owner that stays alive and all delegates bound, the
run on the empty buffer leaves an empty trace: no `OnResult_Internal` call and
no broadcast at all. A buffer that passes no check, imported with format
`Auto`, by contrast gets its single `InvalidAudioFormat` result. -/
theorem ImportAudioFromBuffer_Wav_check_fails_no_result :
    (sampleEnv.WAVTranscoder_CheckAndFixWavDurationErrors []).1 = false
      ∧ (ImportAudioFromBuffer sampleEnv [] EAudioFormat.Wav {}).trace = []
      ∧ (ImportAudioFromBuffer sampleEnv [] EAudioFormat.Auto {}).trace
        = [Event.OnProgress_Internal 5, Event.OnProgress_Broadcast 5,
            Event.OnProgressNative_Broadcast 5,
            Event.OnResult_Internal none ETranscodingStatus.InvalidAudioFormat,
            Event.OnResultNative_Broadcast none ETranscodingStatus.InvalidAudioFormat,
            Event.OnResult_Broadcast none ETranscodingStatus.InvalidAudioFormat] := by
  decide

/-- C8 (evaluation of the code): for every environment, save path, quality and
run state, `ExportSoundWaveToFile` with a bound result delegate leaves the run
unchanged (the delegate is never executed and nothing is written) both when the
sound wave is invalid, whatever the format, and when the sound wave is valid
but the target format is `Auto` or `Invalid`, so that `EncodeAudioData` returns
`false`. -/
theorem ExportSoundWaveToFile_encode_failure_no_result (env : Env) (SavePath : String)
    (AudioFormat : EAudioFormat) (Quality : Byte) (w : UImportedSoundWave) (s : Run) :
    ExportSoundWaveToFile env none SavePath AudioFormat Quality recordExportToFile s = s
      ∧ ExportSoundWaveToFile env (some w) SavePath EAudioFormat.Auto Quality
          recordExportToFile s = s
      ∧ ExportSoundWaveToFile env (some w) SavePath EAudioFormat.Invalid Quality
          recordExportToFile s = s := by
  refine ⟨?_, ?_, ?_⟩ <;>
    simp [ExportSoundWaveToFile, ExportSoundWaveToBuffer, EncodeAudioData, ExecuteIfBound]

/-! ## Progress contract -/

@[simp]
theorem notifications_nil : notifications [] = [] := rfl

@[simp]
theorem notifications_append (t u : List Event) :
    notifications (t ++ u) = notifications t ++ notifications u := by
  simp [notifications]

@[simp]
theorem trace_checkValid (env : Env) (s : Run) : (s.checkValid env).2.trace = s.trace := rfl

/-- A call of `OnProgress_Internal` adds exactly one progress notification. -/
@[simp]
theorem notifications_OnProgress_Internal (env : Env) (p : Int) (s : Run) :
    notifications (OnProgress_Internal env p s).trace
      = notifications s.trace ++ [Notification.Progress p] := by
  simp only [OnProgress_Internal, Run.checkValid, Run.log]
  split_ifs <;> simp [notifications]

/-- A call of `OnResult_Internal` adds exactly one result notification. -/
@[simp]
theorem notifications_OnResult_Internal (env : Env) (w : Option UImportedSoundWave)
    (st : ETranscodingStatus) (s : Run) :
    notifications (OnResult_Internal env w st s).trace
      = notifications s.trace ++ [Notification.Result st] := by
  simp only [OnResult_Internal, Run.checkValid, Run.log]
  split_ifs <;> simp [notifications]

/-- Decoding issues no notification. -/
@[simp]
theorem notifications_DecodeAudioData (env : Env) (e : FEncodedAudioStruct)
    (d : FDecodedAudioStruct) (s : Run) :
    notifications (DecodeAudioData env e d s).2.2.2.trace = notifications s.trace := by
  unfold DecodeAudioData
  simp only []
  split <;> (try split_ifs) <;> simp [notifications, Run.log]

/-- The notifications of `ImportAudioFromDecodedInfo`. -/
theorem notifications_ImportAudioFromDecodedInfo (env : Env) (d : FDecodedAudioStruct)
    (s : Run) :
    notifications (ImportAudioFromDecodedInfo env d s).trace
      = notifications s.trace ++
        (if env.NewImportedSoundWave.isSome then
          [Notification.Progress 70, Notification.Progress 75, Notification.Progress 95,
            Notification.Progress 100, Notification.Result ETranscodingStatus.SuccessfulImport]
        else [Notification.Result ETranscodingStatus.SoundWaveDeclarationError]) := by
  unfold ImportAudioFromDecodedInfo CreateImportedSoundWave
  cases env.NewImportedSoundWave <;> simp [DefineSoundWave]

/-- The notifications of `ImportAudioFromBuffer` form one of six sequences. -/
theorem notifications_ImportAudioFromBuffer (env : Env) (AudioData : Buffer)
    (AudioFormat : EAudioFormat) (s : Run) :
    ∃ l ∈ ([[],
        [Notification.Progress 5, Notification.Result ETranscodingStatus.InvalidAudioFormat],
        [Notification.Progress 5, Notification.Progress 10,
          Notification.Result ETranscodingStatus.FailedToReadAudioDataArray],
        [Notification.Progress 5, Notification.Progress 10, Notification.Progress 65],
        [Notification.Progress 5, Notification.Progress 10, Notification.Progress 65,
          Notification.Result ETranscodingStatus.SoundWaveDeclarationError],
        [Notification.Progress 5, Notification.Progress 10, Notification.Progress 65,
          Notification.Progress 70, Notification.Progress 75, Notification.Progress 95,
          Notification.Progress 100,
          Notification.Result ETranscodingStatus.SuccessfulImport]] : List (List Notification)),
      notifications (ImportAudioFromBuffer env AudioData AudioFormat s).trace
        = notifications s.trace ++ l := by
  unfold ImportAudioFromBuffer
  simp only [Run.checkValid]
  split_ifs <;> simp [notifications_ImportAudioFromDecodedInfo] <;>
    exact Or.inr (Classical.em _)

/-- The notifications of `ImportAudioFromFile` form one of eight sequences. -/
theorem notifications_ImportAudioFromFile (env : Env) (FilePath : String)
    (Format : EAudioFormat) (s : Run) :
    ∃ l ∈ ([[],
        [Notification.Result ETranscodingStatus.AudioDoesNotExist],
        [Notification.Result ETranscodingStatus.LoadFileToArrayError],
        [Notification.Progress 5, Notification.Result ETranscodingStatus.InvalidAudioFormat],
        [Notification.Progress 5, Notification.Progress 10,
          Notification.Result ETranscodingStatus.FailedToReadAudioDataArray],
        [Notification.Progress 5, Notification.Progress 10, Notification.Progress 65],
        [Notification.Progress 5, Notification.Progress 10, Notification.Progress 65,
          Notification.Result ETranscodingStatus.SoundWaveDeclarationError],
        [Notification.Progress 5, Notification.Progress 10, Notification.Progress 65,
          Notification.Progress 70, Notification.Progress 75, Notification.Progress 95,
          Notification.Progress 100,
          Notification.Result ETranscodingStatus.SuccessfulImport]] : List (List Notification)),
      notifications (ImportAudioFromFile env FilePath Format s).trace
        = notifications s.trace ++ l := by
  unfold ImportAudioFromFile
  by_cases hE : (!env.FileExists FilePath) = true
  · rw [if_pos hE]
    exact ⟨_, by simp, notifications_OnResult_Internal _ _ _ _⟩
  · rw [if_neg hE]
    simp only []
    cases LoadAudioFileToArray env FilePath with
    | none => exact ⟨_, by simp, notifications_OnResult_Internal _ _ _ _⟩
    | some AudioBuffer =>
      refine (notifications_ImportAudioFromBuffer env AudioBuffer _ s).imp
        fun l hl => ⟨?_, hl.2⟩
      have hl := hl.1
      simp only [List.mem_cons, List.mem_singleton, List.not_mem_nil, or_false] at hl ⊢
      tauto

/-- The notifications of `ImportAudioFromRAWBuffer` form one of four
sequences. -/
theorem notifications_ImportAudioFromRAWBuffer (env : Env) (RAWBuffer : Buffer)
    (Format : ERAWAudioFormat) (SampleRate NumOfChannels : Int) (s : Run) :
    ∃ l ∈ ([[], [Notification.Result ETranscodingStatus.FailedToReadAudioDataArray],
        [Notification.Progress 50,
          Notification.Result ETranscodingStatus.SoundWaveDeclarationError],
        [Notification.Progress 50, Notification.Progress 70, Notification.Progress 75,
          Notification.Progress 95, Notification.Progress 100,
          Notification.Result ETranscodingStatus.SuccessfulImport]] : List (List Notification)),
      notifications (ImportAudioFromRAWBuffer env RAWBuffer Format SampleRate NumOfChannels
          s).trace = notifications s.trace ++ l := by
  unfold ImportAudioFromRAWBuffer
  simp only []
  split
  · exact ⟨_, by simp, notifications_OnResult_Internal _ _ _ _⟩
  · split_ifs
    · exact ⟨_, by simp, notifications_OnResult_Internal _ _ _ _⟩
    · unfold ImportAudioFromFloat32Buffer
      cases Float32BufferDecodedInfo _ SampleRate NumOfChannels with
      | none => exact ⟨[], by simp, by simp⟩
      | some d =>
        simp only [notifications_ImportAudioFromDecodedInfo, notifications_OnProgress_Internal]
        split_ifs <;> simp

/-- The notifications of `ImportAudioFromRAWFile` form one of six sequences. -/
theorem notifications_ImportAudioFromRAWFile (env : Env) (FilePath : String)
    (Format : ERAWAudioFormat) (SampleRate NumOfChannels : Int) (s : Run) :
    ∃ l ∈ ([[Notification.Result ETranscodingStatus.AudioDoesNotExist],
        [Notification.Progress 5, Notification.Result ETranscodingStatus.LoadFileToArrayError],
        [Notification.Progress 5, Notification.Progress 35],
        [Notification.Progress 5, Notification.Progress 35,
          Notification.Result ETranscodingStatus.FailedToReadAudioDataArray],
        [Notification.Progress 5, Notification.Progress 35, Notification.Progress 50,
          Notification.Result ETranscodingStatus.SoundWaveDeclarationError],
        [Notification.Progress 5, Notification.Progress 35, Notification.Progress 50,
          Notification.Progress 70, Notification.Progress 75, Notification.Progress 95,
          Notification.Progress 100,
          Notification.Result ETranscodingStatus.SuccessfulImport]] : List (List Notification)),
      notifications (ImportAudioFromRAWFile env FilePath Format SampleRate NumOfChannels
          s).trace = notifications s.trace ++ l := by
  unfold ImportAudioFromRAWFile
  split_ifs
  · exact ⟨_, by simp, notifications_OnResult_Internal _ _ _ _⟩
  · simp only [Run.checkValid]
    cases LoadAudioFileToArray env FilePath with
    | none =>
      exact ⟨[Notification.Progress 5,
        Notification.Result ETranscodingStatus.LoadFileToArrayError], by simp, by simp⟩
    | some AudioBuffer =>
      simp only []
      split_ifs
      · obtain ⟨l, hl, h⟩ := notifications_ImportAudioFromRAWBuffer env AudioBuffer Format
          SampleRate NumOfChannels
          { checks := (OnProgress_Internal env 35 (OnProgress_Internal env 5 s)).checks + 1,
            trace := (OnProgress_Internal env 35 (OnProgress_Internal env 5 s)).trace }
        refine ⟨[Notification.Progress 5, Notification.Progress 35] ++ l, ?_, ?_⟩
        · simp only [List.mem_cons, List.mem_singleton, List.not_mem_nil, or_false] at hl
          rcases hl with rfl | rfl | rfl | rfl <;> simp
        · rw [h]
          simp
      · exact ⟨[Notification.Progress 5, Notification.Progress 35], by simp, by simp⟩

/-- With an owner that stays alive, `ImportAudioFromBuffer` issues no
notification at all when the format is `Wav` and the duration check rejects the
buffer, and otherwise issues exactly one result, which is its last
notification. -/
theorem ImportAudioFromBuffer_results_owner_alive (env : Env) (AudioData : Buffer)
    (AudioFormat : EAudioFormat) (s : Run) (ha : ∀ n, env.IsValid n = true) :
    if AudioFormat = EAudioFormat.Wav
        ∧ (env.WAVTranscoder_CheckAndFixWavDurationErrors AudioData).1 = false then
      ImportAudioFromBuffer env AudioData AudioFormat s = s
    else
      ∃ l st, notifications (ImportAudioFromBuffer env AudioData AudioFormat s).trace
          = notifications s.trace ++ l ++ [Notification.Result st]
        ∧ resultStatuses l = [] := by
  unfold ImportAudioFromBuffer
  simp only [Run.checkValid, ha, Bool.not_true, Bool.false_eq_true, if_false]
  split_ifs <;> simp [notifications_ImportAudioFromDecodedInfo]
  all_goals
    first
      | exact ⟨[Notification.Progress 5], ⟨_, rfl⟩, rfl⟩
      | exact ⟨[Notification.Progress 5, Notification.Progress 10], ⟨_, rfl⟩, rfl⟩
      | (split_ifs
         · exact ⟨[Notification.Progress 5, Notification.Progress 10, Notification.Progress 65,
             Notification.Progress 70, Notification.Progress 75, Notification.Progress 95,
             Notification.Progress 100], ⟨_, rfl⟩, rfl⟩
         · exact ⟨[Notification.Progress 5, Notification.Progress 10, Notification.Progress 65],
             ⟨_, rfl⟩, rfl⟩)

/-- C9: for every import run through `ImportAudioFromFile`,
`ImportAudioFromBuffer`, `ImportAudioFromRAWFile` or `ImportAudioFromRAWBuffer`,
whatever the collaborators answer and whenever the owner dies, the percentages
passed to `OnProgress_Internal` are non-decreasing and within `0..100`, none is
reported after the result, at most one result is issued, and `100` is reported
exactly when a result with status `SuccessfulImport` is issued. -/
theorem import_progress_contract (env : Env) (FilePath : String) (AudioData : Buffer)
    (AudioFormat : EAudioFormat) (RAWFormat : ERAWAudioFormat) (SampleRate NumOfChannels : Int)
    (n : Nat) :
    ProgressContract (notifications
        (ImportAudioFromFile env FilePath AudioFormat ⟨n, []⟩).trace)
      ∧ ProgressContract (notifications
        (ImportAudioFromBuffer env AudioData AudioFormat ⟨n, []⟩).trace)
      ∧ ProgressContract (notifications
        (ImportAudioFromRAWFile env FilePath RAWFormat SampleRate NumOfChannels ⟨n, []⟩).trace)
      ∧ ProgressContract (notifications
        (ImportAudioFromRAWBuffer env AudioData RAWFormat SampleRate NumOfChannels
          ⟨n, []⟩).trace) := by
  refine ⟨?_, ?_, ?_, ?_⟩
  · obtain ⟨l, hl, h⟩ := notifications_ImportAudioFromFile env FilePath AudioFormat ⟨n, []⟩
    rw [h, notifications_nil, List.nil_append]
    simp only [List.mem_cons, List.mem_singleton, List.not_mem_nil, or_false] at hl
    rcases hl with rfl | rfl | rfl | rfl | rfl | rfl | rfl | rfl <;> decide
  · obtain ⟨l, hl, h⟩ := notifications_ImportAudioFromBuffer env AudioData AudioFormat ⟨n, []⟩
    rw [h, notifications_nil, List.nil_append]
    simp only [List.mem_cons, List.mem_singleton, List.not_mem_nil, or_false] at hl
    rcases hl with rfl | rfl | rfl | rfl | rfl | rfl <;> decide
  · obtain ⟨l, hl, h⟩ := notifications_ImportAudioFromRAWFile env FilePath RAWFormat
      SampleRate NumOfChannels ⟨n, []⟩
    rw [h, notifications_nil, List.nil_append]
    simp only [List.mem_cons, List.mem_singleton, List.not_mem_nil, or_false] at hl
    rcases hl with rfl | rfl | rfl | rfl | rfl | rfl <;> decide
  · obtain ⟨l, hl, h⟩ := notifications_ImportAudioFromRAWBuffer env AudioData RAWFormat
      SampleRate NumOfChannels ⟨n, []⟩
    rw [h, notifications_nil, List.nil_append]
    simp only [List.mem_cons, List.mem_singleton, List.not_mem_nil, or_false] at hl
    rcases hl with rfl | rfl | rfl | rfl <;> decide

/-! ## Owner liveness -/

@[simp]
theorem broadcasts_append (t u : List Event) :
    broadcasts (t ++ u) = broadcasts t ++ broadcasts u := by
  simp [broadcasts]

/-- With an owner that is dead at the delivery check, `OnProgress_Internal`
records the call and nothing else. -/
theorem OnProgress_Internal_dead (env : Env) (p : Int) (s : Run)
    (h : env.IsValid s.checks = false) :
    OnProgress_Internal env p s
      = { checks := s.checks + 1, trace := s.trace ++ [Event.OnProgress_Internal p] } := by
  simp [OnProgress_Internal, Run.checkValid, Run.log, h]

/-- With an owner that is dead at the delivery check, `OnResult_Internal`
records the call and nothing else. -/
theorem OnResult_Internal_dead (env : Env) (w : Option UImportedSoundWave)
    (st : ETranscodingStatus) (s : Run) (h : env.IsValid s.checks = false) :
    OnResult_Internal env w st s
      = { checks := s.checks + 1, trace := s.trace ++ [Event.OnResult_Internal w st] } := by
  simp [OnResult_Internal, Run.checkValid, Run.log, h]

/-- With an owner that is dead when the background task starts,
`ImportAudioFromBuffer` adds nothing to the trace. -/
theorem ImportAudioFromBuffer_dead (env : Env) (AudioData : Buffer)
    (AudioFormat : EAudioFormat) (s : Run) (h : env.IsValid s.checks = false) :
    (ImportAudioFromBuffer env AudioData AudioFormat s).trace = s.trace := by
  unfold ImportAudioFromBuffer
  simp only [Run.checkValid, h, Bool.not_false, if_true]
  split_ifs <;> rfl

/-- With an owner that is never alive, `OnProgress_Internal` broadcasts
nothing. -/
theorem broadcasts_OnProgress_Internal_dead (env : Env) (hd : ∀ n, env.IsValid n = false)
    (p : Int) (s : Run) :
    broadcasts (OnProgress_Internal env p s).trace = broadcasts s.trace := by
  rw [OnProgress_Internal_dead env p s (hd _)]
  simp [broadcasts, Event.isBroadcast]

/-- With an owner that is never alive, `OnResult_Internal` broadcasts
nothing. -/
theorem broadcasts_OnResult_Internal_dead (env : Env) (hd : ∀ n, env.IsValid n = false)
    (w : Option UImportedSoundWave) (st : ETranscodingStatus) (s : Run) :
    broadcasts (OnResult_Internal env w st s).trace = broadcasts s.trace := by
  rw [OnResult_Internal_dead env w st s (hd _)]
  simp [broadcasts, Event.isBroadcast]

/-- With an owner that is never alive, `ImportAudioFromDecodedInfo` broadcasts
nothing. -/
theorem broadcasts_ImportAudioFromDecodedInfo_dead (env : Env)
    (hd : ∀ n, env.IsValid n = false) (d : FDecodedAudioStruct) (s : Run) :
    broadcasts (ImportAudioFromDecodedInfo env d s).trace = broadcasts s.trace := by
  unfold ImportAudioFromDecodedInfo CreateImportedSoundWave
  cases env.NewImportedSoundWave <;>
    simp [DefineSoundWave, broadcasts_OnProgress_Internal_dead env hd,
      broadcasts_OnResult_Internal_dead env hd]

/-- With an owner that is never alive, `ImportAudioFromRAWBuffer` broadcasts
nothing. -/
theorem broadcasts_ImportAudioFromRAWBuffer_dead (env : Env)
    (hd : ∀ n, env.IsValid n = false) (RAWBuffer : Buffer) (Format : ERAWAudioFormat)
    (SampleRate NumOfChannels : Int) (s : Run) :
    broadcasts (ImportAudioFromRAWBuffer env RAWBuffer Format SampleRate NumOfChannels s).trace
      = broadcasts s.trace := by
  unfold ImportAudioFromRAWBuffer
  simp only []
  split
  · exact broadcasts_OnResult_Internal_dead env hd _ _ _
  · split_ifs
    · exact broadcasts_OnResult_Internal_dead env hd _ _ _
    · unfold ImportAudioFromFloat32Buffer
      cases Float32BufferDecodedInfo _ SampleRate NumOfChannels with
      | none => rfl
      | some d =>
        simp [broadcasts_ImportAudioFromDecodedInfo_dead env hd,
          broadcasts_OnProgress_Internal_dead env hd]

/-- C10: whatever the environment, (1) a call of `OnProgress_Internal` whose
delivery check finds the owner dead records the call and executes no subscriber
callback; (2) likewise for `OnResult_Internal`; (3) if the owner is dead when
the background task of `ImportAudioFromBuffer` starts, the run adds nothing to
the trace: no decode, no notification; (4) if the owner is dead at every check,
none of the four import entry points executes any subscriber callback. -/
theorem owner_dead_suppresses_callbacks (env : Env) :
    (∀ (p : Int) (s : Run), env.IsValid s.checks = false →
        (OnProgress_Internal env p s).trace = s.trace ++ [Event.OnProgress_Internal p])
      ∧ (∀ (w : Option UImportedSoundWave) (st : ETranscodingStatus) (s : Run),
        env.IsValid s.checks = false →
        (OnResult_Internal env w st s).trace = s.trace ++ [Event.OnResult_Internal w st])
      ∧ (∀ (AudioData : Buffer) (AudioFormat : EAudioFormat) (s : Run),
        env.IsValid s.checks = false →
        (ImportAudioFromBuffer env AudioData AudioFormat s).trace = s.trace)
      ∧ ((∀ n, env.IsValid n = false) →
        ∀ (FilePath : String) (AudioData : Buffer) (AudioFormat : EAudioFormat)
          (RAWFormat : ERAWAudioFormat) (SampleRate NumOfChannels : Int) (s : Run),
          broadcasts (ImportAudioFromFile env FilePath AudioFormat s).trace = broadcasts s.trace
            ∧ broadcasts (ImportAudioFromBuffer env AudioData AudioFormat s).trace
              = broadcasts s.trace
            ∧ broadcasts (ImportAudioFromRAWFile env FilePath RAWFormat SampleRate
                NumOfChannels s).trace = broadcasts s.trace
            ∧ broadcasts (ImportAudioFromRAWBuffer env AudioData RAWFormat SampleRate
                NumOfChannels s).trace = broadcasts s.trace) := by
  refine ⟨?_, ?_, ?_, ?_⟩
  · intro p s h
    rw [OnProgress_Internal_dead env p s h]
  · intro w st s h
    rw [OnResult_Internal_dead env w st s h]
  · intro AudioData AudioFormat s h
    exact ImportAudioFromBuffer_dead env AudioData AudioFormat s h
  · intro hd FilePath AudioData AudioFormat RAWFormat SampleRate NumOfChannels s
    refine ⟨?_, ?_, ?_, ?_⟩
    · unfold ImportAudioFromFile
      by_cases hE : (!env.FileExists FilePath) = true
      · rw [if_pos hE]
        exact broadcasts_OnResult_Internal_dead env hd _ _ _
      · rw [if_neg hE]
        simp only []
        split
        · exact broadcasts_OnResult_Internal_dead env hd _ _ _
        · rw [ImportAudioFromBuffer_dead env _ _ s (hd _)]
    · rw [ImportAudioFromBuffer_dead env _ _ s (hd _)]
    · unfold ImportAudioFromRAWFile
      split_ifs
      · exact broadcasts_OnResult_Internal_dead env hd _ _ _
      · simp only [Run.checkValid, hd]
        split <;>
          simp [broadcasts_OnResult_Internal_dead env hd,
            broadcasts_OnProgress_Internal_dead env hd]
    · exact broadcasts_ImportAudioFromRAWBuffer_dead env hd _ _ _ _ _

/-- Witness for `owner_dead_suppresses_callbacks`: with an owner that is never
alive, importing a buffer that starts with the `fLaC` magic number leaves the
trace empty, and a progress call records only itself. -/
theorem owner_dead_suppresses_callbacks_witness :
    deadOwnerEnv.IsValid 0 = false
      ∧ (ImportAudioFromBuffer deadOwnerEnv [0x66, 0x4C, 0x61, 0x43, 1, 2, 3, 4]
          EAudioFormat.Auto {}).trace = []
      ∧ (OnProgress_Internal deadOwnerEnv 5 {}).trace = [Event.OnProgress_Internal 5]
      ∧ broadcasts (ImportAudioFromFile deadOwnerEnv "Music/Track.wav" EAudioFormat.Auto
          {}).trace = [] :=
  ⟨rfl,
    (owner_dead_suppresses_callbacks deadOwnerEnv).2.2.1 _ _ {} rfl,
    (owner_dead_suppresses_callbacks deadOwnerEnv).1 5 {} rfl,
    ((owner_dead_suppresses_callbacks deadOwnerEnv).2.2.2 (fun _ => rfl) "Music/Track.wav" []
      EAudioFormat.Auto ERAWAudioFormat.Int16 0 0 {}).1⟩

/-! ## Import of an unrecognised buffer -/

/-- C14: for every buffer rejected by all four `CheckAudioFormat` predicates,
`ImportAudioFromBuffer` with format `Auto` and an owner that stays alive adds to
the trace exactly: the progress call `5` with its broadcasts, then the result
call with a null sound wave and status `InvalidAudioFormat` with its
broadcasts. No `Decode` is invoked and no progress above `5` is reported. -/
theorem ImportAudioFromBuffer_Auto_unrecognised (env : Env) (AudioData : Buffer) (s : Run)
    (hMp3 : env.MP3Transcoder.CheckAudioFormat AudioData = false)
    (hWav : env.WAVTranscoder.CheckAudioFormat AudioData = false)
    (hFlac : env.FlacTranscoder.CheckAudioFormat AudioData = false)
    (hVorbis : env.VorbisTranscoder.CheckAudioFormat AudioData = false)
    (hAlive : ∀ n, env.IsValid n = true) :
    (ImportAudioFromBuffer env AudioData EAudioFormat.Auto s).trace
        = s.trace ++ [Event.OnProgress_Internal 5]
          ++ (if env.OnProgress_IsBound then [Event.OnProgress_Broadcast 5] else [])
          ++ (if env.OnProgressNative_IsBound then [Event.OnProgressNative_Broadcast 5] else [])
          ++ [Event.OnResult_Internal none ETranscodingStatus.InvalidAudioFormat]
          ++ (if env.OnResultNative_IsBound then
              [Event.OnResultNative_Broadcast none ETranscodingStatus.InvalidAudioFormat]
            else [])
          ++ (if env.OnResult_IsBound then
              [Event.OnResult_Broadcast none ETranscodingStatus.InvalidAudioFormat]
            else [])
      ∧ notifications (ImportAudioFromBuffer env AudioData EAudioFormat.Auto s).trace
        = notifications s.trace
          ++ [Notification.Progress 5,
            Notification.Result ETranscodingStatus.InvalidAudioFormat] := by
  have hInvalid : GetAudioFormat_AudioData env AudioData = EAudioFormat.Invalid := by
    simp [GetAudioFormat_AudioData, hMp3, hWav, hFlac, hVorbis]
  constructor
  · simp only [ImportAudioFromBuffer, OnProgress_Internal, OnResult_Internal, Run.checkValid,
      Run.log, hAlive, hInvalid, reduceCtorEq, false_and, if_false, if_true, Bool.not_true,
      Bool.false_eq_true]
    split_ifs <;> simp
  · simp [ImportAudioFromBuffer, Run.checkValid, hAlive, hInvalid]

/-- Witness for `ImportAudioFromBuffer_Auto_unrecognised`: the bytes `1 2 3 4`
carry no known magic number. -/
theorem ImportAudioFromBuffer_Auto_unrecognised_witness :
    notifications (ImportAudioFromBuffer sampleEnv [1, 2, 3, 4] EAudioFormat.Auto {}).trace
      = [Notification.Progress 5, Notification.Result ETranscodingStatus.InvalidAudioFormat] :=
  (ImportAudioFromBuffer_Auto_unrecognised sampleEnv [1, 2, 3, 4] {} (by decide) (by decide)
    (by decide) (by decide) (fun _ => rfl)).2

/-! ## Format handed on by `ImportAudioFromFile` -/

/-- C15: for every existing, readable file and every format hint,
`ImportAudioFromFile` is `ImportAudioFromBuffer` on the loaded bytes with a
format that is never `Invalid`: `Auto` when the hint is `Invalid`, or when the
hint is `Auto` and the extension is not recognised; the extension's format when
the hint is `Auto` and the extension is recognised; the hint itself
otherwise. -/
theorem ImportAudioFromFile_format_passed (env : Env) (FilePath : String)
    (Format : EAudioFormat) (FileData : Buffer) (s : Run)
    (hExists : env.FileExists FilePath = true)
    (hLoad : env.LoadFileToArray FilePath = some FileData) :
    let Passed : EAudioFormat :=
      if Format = EAudioFormat.Invalid then EAudioFormat.Auto
      else if Format = EAudioFormat.Auto then
        (if GetAudioFormat env FilePath = EAudioFormat.Invalid then EAudioFormat.Auto
          else GetAudioFormat env FilePath)
      else Format
    Passed ≠ EAudioFormat.Invalid
      ∧ ImportAudioFromFile env FilePath Format s
        = ImportAudioFromBuffer env (FileData.take (FileData.length - 2)) Passed s := by
  intro Passed
  constructor
  · show (if Format = EAudioFormat.Invalid then EAudioFormat.Auto
      else if Format = EAudioFormat.Auto then
        (if GetAudioFormat env FilePath = EAudioFormat.Invalid then EAudioFormat.Auto
          else GetAudioFormat env FilePath)
      else Format) ≠ EAudioFormat.Invalid
    split_ifs <;> simp_all
  · show ImportAudioFromFile env FilePath Format s = _
    simp only [ImportAudioFromFile, LoadAudioFileToArray, hExists, hLoad, Bool.not_true,
      Bool.false_eq_true, if_false]
    congr 1
    cases Format <;> simp [Passed]

/-- Witness for `ImportAudioFromFile_format_passed`: the hint `Invalid` on the
one readable file is handed on as `Auto`. -/
theorem ImportAudioFromFile_format_passed_witness :
    oneFileEnv.FileExists "Music/Track.ogg" = true
      ∧ ImportAudioFromFile oneFileEnv "Music/Track.ogg" EAudioFormat.Invalid {}
        = ImportAudioFromBuffer oneFileEnv [0x66, 0x4C, 0x61, 0x43, 1, 2, 3, 4]
            EAudioFormat.Auto {} :=
  ⟨by decide,
    (ImportAudioFromFile_format_passed oneFileEnv "Music/Track.ogg" EAudioFormat.Invalid
      [0x66, 0x4C, 0x61, 0x43, 1, 2, 3, 4, 0, 0] {} (by decide) (by decide)).2⟩

/-! ## The decoded structure of a float32 buffer -/

/-- Zero has no binary digits. -/
theorem binaryLength_zero (fuel : Nat) : binaryLength fuel 0 = 0 := by
  cases fuel <;> simp [binaryLength]

/-- A positive number below `2 ^ fuel` lies between the powers of two given by
its number of binary digits. -/
theorem binaryLength_spec (fuel : Nat) :
    ∀ n : Nat, 0 < n → n < 2 ^ fuel →
      0 < binaryLength fuel n ∧ 2 ^ (binaryLength fuel n - 1) ≤ n
        ∧ n < 2 ^ binaryLength fuel n := by
  induction fuel with
  | zero =>
    intro n h0 h1
    simp at h1
    omega
  | succ fuel ih =>
    intro n h0 h1
    have hn : n ≠ 0 := by omega
    simp only [binaryLength, hn, if_false]
    by_cases h2 : n / 2 = 0
    · have h1n : n = 1 := by omega
      subst h1n
      simp [binaryLength_zero]
    · have hlt : n / 2 < 2 ^ fuel := by
        rw [Nat.pow_succ] at h1
        omega
      obtain ⟨hpos, hlo, hhi⟩ := ih (n / 2) (by omega) hlt
      refine ⟨by omega, ?_, ?_⟩
      · have hl : binaryLength fuel (n / 2) + 1 - 1 = (binaryLength fuel (n / 2) - 1) + 1 := by
          omega
        rw [hl, Nat.pow_succ]
        omega
      · rw [Nat.pow_succ]
        omega

/-- A number below `2 ^ k` has at most `k` binary digits. -/
theorem binaryLength_le (n k : Nat) (h : n < 2 ^ k) (hk : k ≤ 32) : binaryLength 32 n ≤ k := by
  by_cases h0 : n = 0
  · subst h0
    rw [binaryLength_zero]
    exact Nat.zero_le _
  · have hlt : n < 2 ^ 32 := lt_of_lt_of_le h (Nat.pow_le_pow_right (by norm_num) hk)
    obtain ⟨hpos, hlo, _⟩ := binaryLength_spec 32 n (by omega) hlt
    by_contra hcon
    have hle : k ≤ binaryLength 32 n - 1 := by omega
    have := Nat.pow_le_pow_right (show 0 < 2 by norm_num) hle
    omega

/-- An integer below `2 ^ 24` is converted to binary32 exactly. -/
theorem roundToFloat32_of_lt (a : Nat) (h : a < 2 ^ 24) : roundToFloat32 a = a := by
  have hl := binaryLength_le a 24 h (by norm_num)
  simp [roundToFloat32, hl]

/-- The conversion of a positive integer below `2 ^ 32` to binary32 is positive,
at most `2 ^ 32`, and within the fraction `2 ^ (-24)` of the integer. -/
theorem roundToFloat32_spec (a : Nat) (h0 : 0 < a) (h : a < 2 ^ 32) :
    0 < roundToFloat32 a ∧ roundToFloat32 a ≤ 2 ^ 32
      ∧ roundToFloat32 a * 2 ^ 24 ≤ a * 2 ^ 24 + a
      ∧ a * 2 ^ 24 ≤ roundToFloat32 a * 2 ^ 24 + a := by
  obtain ⟨hpos, hlo, hhi⟩ := binaryLength_spec 32 a h0 h
  have hle := binaryLength_le a 32 h (le_refl _)
  unfold roundToFloat32
  simp only []
  generalize binaryLength 32 a = n at *
  by_cases hn : n ≤ 24
  · rw [if_pos hn]
    omega
  · rw [if_neg hn]
    have hn25 : 25 ≤ n := by omega
    interval_cases n <;> simp only [Nat.reduceSub, Nat.reducePow] at hlo hhi ⊢ <;>
      split_ifs <;> omega

/-- The pattern with exponent field `E` in `1..254` and 24-digit significand `m`
is non-negative, finite, and has the value `m * 2 ^ (E - 150)`. -/
theorem float32Value_normal (E m : Nat) (hE : 0 < E) (hE' : E < 255) (hm : 2 ^ 23 ≤ m)
    (hm' : m < 2 ^ 24) :
    E * 2 ^ 23 + (m - 2 ^ 23) < 2 ^ 31
      ∧ float32IsFinite (E * 2 ^ 23 + (m - 2 ^ 23)) = true
      ∧ float32Value (E * 2 ^ 23 + (m - 2 ^ 23)) = (m : ℚ) * 2 ^ E / 2 ^ 150 := by
  have h1 : (E * 2 ^ 23 + (m - 2 ^ 23)) / 2 ^ 31 % 2 = 0 := by omega
  have h2 : (E * 2 ^ 23 + (m - 2 ^ 23)) / 2 ^ 23 % 256 = E := by omega
  have h3 : (E * 2 ^ 23 + (m - 2 ^ 23)) % 2 ^ 23 = m - 2 ^ 23 := by omega
  have h4 : 2 ^ 23 + (m - 2 ^ 23) = m := by omega
  refine ⟨by omega, ?_, ?_⟩
  · simp only [float32IsFinite, h2]
    simp
    omega
  · have hE0 : E ≠ 0 := by omega
    simp only [float32Value, h1, h2, h3, h4, hE0, if_false]
    simp

/-- A multiple `t` of `2 ^ (-56)` within half a unit `H` of the scaled quotient
`n / B`, the quotient being at least `H * 2 ^ 24`, is within the fraction
`2 ^ (-24)` of it. -/
theorem float32_quotient_bound (n B t H : ℚ) (hB : 0 < B) (h1 : n ≤ t * B + H * B)
    (h2 : t * B ≤ n + H * B) (h3 : H * 2 ^ 24 * B ≤ n) :
    |t / 2 ^ 56 - n / 2 ^ 56 / B| ≤ n / 2 ^ 56 / B / 2 ^ 24 := by
  rw [abs_le]
  constructor
  · rw [← sub_nonneg]
    have : t / 2 ^ 56 - n / 2 ^ 56 / B - -(n / 2 ^ 56 / B / 2 ^ 24)
        = (t * B * 2 ^ 24 - n * 2 ^ 24 + n) / (2 ^ 80 * B) := by
      field_simp
      ring
    rw [this]
    apply div_nonneg _ (by positivity)
    nlinarith
  · rw [← sub_nonneg]
    have : n / 2 ^ 56 / B / 2 ^ 24 - (t / 2 ^ 56 - n / 2 ^ 56 / B)
        = (n + n * 2 ^ 24 - t * B * 2 ^ 24) / (2 ^ 80 * B) := by
      field_simp
      ring
    rw [this]
    apply div_nonneg _ (by positivity)
    nlinarith

/-- The pattern `float32QuotientBits a b` is non-negative and finite, and its
value is within the fraction `2 ^ (-24)` of `a / b`. -/
theorem float32QuotientBits_spec (a b : Nat) (ha : 0 < a) (ha' : a ≤ 2 ^ 32) (hb : 0 < b)
    (hb' : b ≤ 2 ^ 32) :
    float32QuotientBits a b < 2 ^ 31
      ∧ float32IsFinite (float32QuotientBits a b) = true
      ∧ |float32Value (float32QuotientBits a b) - (a : ℚ) / (b : ℚ)|
          ≤ (a : ℚ) / (b : ℚ) / 2 ^ 24 := by
  have hNQ : a * 2 ^ 56 = b * (a * 2 ^ 56 / b) + a * 2 ^ 56 % b :=
    (Nat.div_add_mod _ b).symm
  have hrb : a * 2 ^ 56 % b < b := Nat.mod_lt _ hb
  have hQlo : 2 ^ 24 ≤ a * 2 ^ 56 / b := by
    rw [Nat.le_div_iff_mul_le hb]
    have h1 : 2 ^ 24 * b ≤ 2 ^ 24 * 2 ^ 32 := Nat.mul_le_mul_left _ hb'
    have h2 : 1 * 2 ^ 56 ≤ a * 2 ^ 56 := Nat.mul_le_mul_right _ ha
    omega
  have hQhi : a * 2 ^ 56 / b < 2 ^ 96 := by
    have h1 : a * 2 ^ 56 / b ≤ a * 2 ^ 56 := Nat.div_le_self _ _
    have h2 : a * 2 ^ 56 ≤ 2 ^ 32 * 2 ^ 56 := Nat.mul_le_mul_right _ ha'
    omega
  have hQhi' : a * 2 ^ 56 / b ≤ 2 ^ 88 := by
    have h1 : a * 2 ^ 56 / b ≤ a * 2 ^ 56 := Nat.div_le_self _ _
    have h2 : a * 2 ^ 56 ≤ 2 ^ 32 * 2 ^ 56 := Nat.mul_le_mul_right _ ha'
    omega
  obtain ⟨hLpos, hLlo, hLhi⟩ := binaryLength_spec 96 (a * 2 ^ 56 / b) (by omega) hQhi
  have hL25 : 25 ≤ binaryLength 96 (a * 2 ^ 56 / b) := by
    by_contra hc
    have h1 : 2 ^ binaryLength 96 (a * 2 ^ 56 / b) ≤ 2 ^ 24 :=
      Nat.pow_le_pow_right (by norm_num) (by omega)
    omega
  have hL89 : binaryLength 96 (a * 2 ^ 56 / b) ≤ 89 := by
    by_contra hc
    have h1 : 2 ^ 89 ≤ 2 ^ (binaryLength 96 (a * 2 ^ 56 / b) - 1) :=
      Nat.pow_le_pow_right (by norm_num) (by omega)
    omega
  obtain ⟨k, hk⟩ : ∃ k, binaryLength 96 (a * 2 ^ 56 / b) = k + 25 :=
    ⟨binaryLength 96 (a * 2 ^ 56 / b) - 25, by omega⟩
  unfold float32QuotientBits
  simp only []
  rw [hk] at hLlo hLhi hL89 ⊢
  have e1 : k + 25 - 24 = k + 1 := by omega
  have e2 : k + 25 - 25 = k := by omega
  have e3 : k + 25 - 1 = k + 24 := by omega
  rw [e3] at hLlo
  rw [e1, e2]
  have hk64 : k ≤ 64 := by omega
  generalize a * 2 ^ 56 % b = r at *
  generalize hQ : a * 2 ^ 56 / b = Q at *
  have hdm : Q = 2 ^ (k + 1) * (Q / 2 ^ (k + 1)) + Q % 2 ^ (k + 1) :=
    (Nat.div_add_mod _ _).symm
  have hrest : Q % 2 ^ (k + 1) < 2 ^ (k + 1) := Nat.mod_lt _ (by positivity)
  have hH : 0 < 2 ^ k := by positivity
  have hu : 2 ^ (k + 1) = 2 * 2 ^ k := by rw [pow_succ]; ring
  have hlo' : 2 ^ (k + 24) = 2 ^ k * 2 ^ 24 := by rw [pow_add]
  have hhi' : 2 ^ (k + 25) = 2 ^ k * 2 ^ 25 := by rw [pow_add]
  rw [hlo'] at hLlo
  rw [hhi'] at hLhi
  rw [hu] at hdm hrest ⊢
  generalize hHdef : 2 ^ k = H at *
  generalize hm0 : Q / (2 * H) = m0 at *
  generalize Q % (2 * H) = rest at *
  have hm0lo : 2 ^ 23 ≤ m0 := by
    by_contra hc
    have : m0 + 1 ≤ 2 ^ 23 := by omega
    have h1 : 2 * H * (m0 + 1) ≤ 2 * H * 2 ^ 23 := Nat.mul_le_mul_left _ this
    linarith
  have hm0hi : m0 < 2 ^ 24 := by
    by_contra hc
    have : 2 ^ 24 ≤ m0 := by omega
    have h1 : 2 * H * 2 ^ 24 ≤ 2 * H * m0 := Nat.mul_le_mul_left _ this
    linarith
  generalize hm : (if H < rest ∨ rest = H ∧ (decide (r ≠ 0) = true ∨ m0 % 2 = 1)
    then m0 + 1 else m0) = m
  have hmcases : (m = m0 ∧ rest ≤ H ∧ (rest = H → r = 0)) ∨ (m = m0 + 1 ∧ H ≤ rest) := by
    split_ifs at hm with hc
    · right
      refine ⟨hm.symm, ?_⟩
      rcases hc with h | ⟨h, _⟩ <;> omega
    · left
      push_neg at hc
      refine ⟨hm.symm, by omega, fun h => ?_⟩
      have h1 := (hc.2 h).1
      simpa using h1
  have hbH : b * 1 ≤ b * H := Nat.mul_le_mul_left _ hH
  have I3 : H * 2 ^ 24 * b ≤ a * 2 ^ 56 := by
    have h1 : b * (H * 2 ^ 24) ≤ b * Q := Nat.mul_le_mul_left _ hLlo
    linarith
  have I12 : a * 2 ^ 56 ≤ m * (2 * H) * b + H * b ∧ m * (2 * H) * b ≤ a * 2 ^ 56 + H * b := by
    rw [hNQ, hdm]
    have h0 : 0 ≤ b * rest := Nat.zero_le _
    have h00 : 0 ≤ b * H := Nat.zero_le _
    rcases hmcases with ⟨rfl, h1, h2⟩ | ⟨rfl, h1⟩
    · rcases Nat.lt_or_ge rest H with h | h
      · have h3 : b * (rest + 1) ≤ b * H := Nat.mul_le_mul_left _ h
        constructor <;> linarith
      · have h3 : rest = H := by omega
        have h4 := h2 h3
        subst h3 h4
        constructor <;> linarith
    · have h3 : b * H ≤ b * rest := Nat.mul_le_mul_left _ h1
      have h4 : b * rest ≤ b * (2 * H) := Nat.mul_le_mul_left _ (by omega)
      constructor <;> linarith
  have hmlo : 2 ^ 23 ≤ m := by rcases hmcases with ⟨rfl, _⟩ | ⟨rfl, _⟩ <;> omega
  have hmhi : m ≤ 2 ^ 24 := by rcases hmcases with ⟨rfl, _⟩ | ⟨rfl, _⟩ <;> omega
  have hHq : (2 : ℚ) ^ k = (H : ℚ) := by exact_mod_cast hHdef
  have hbq : (0 : ℚ) < (b : ℚ) := by exact_mod_cast hb
  have hbound := float32_quotient_bound ((a : ℚ) * 2 ^ 56) (b : ℚ) ((m : ℚ) * (2 * (H : ℚ))) (H : ℚ) hbq
    (by exact_mod_cast I12.1) (by exact_mod_cast I12.2) (by exact_mod_cast I3)
  rw [mul_div_cancel_right₀ _ (by positivity)] at hbound
  by_cases hm24 : m = 2 ^ 24
  · rw [if_pos hm24]
    have e : (k + 25 + 71) * 2 ^ 23 = (k + 96) * 2 ^ 23 + (2 ^ 23 - 2 ^ 23) := by omega
    rw [e]
    obtain ⟨v1, v2, v3⟩ := float32Value_normal (k + 96) (2 ^ 23) (by omega) (by omega)
      (le_refl _) (by norm_num)
    refine ⟨v1, v2, ?_⟩
    rw [v3]
    have e2 : ((2 ^ 23 : Nat) : ℚ) * 2 ^ (k + 96) / 2 ^ 150 = (m : ℚ) * (2 * (H : ℚ)) / 2 ^ 56 := by
      rw [hm24, pow_add, hHq]
      push_cast
      ring
    rw [e2]
    exact hbound
  · rw [if_neg hm24]
    have e : (k + 25 + 70) * 2 ^ 23 + (m - 2 ^ 23) = (k + 95) * 2 ^ 23 + (m - 2 ^ 23) := by
      omega
    rw [e]
    obtain ⟨v1, v2, v3⟩ := float32Value_normal (k + 95) m (by omega) (by omega)
      hmlo (by omega)
    refine ⟨v1, v2, ?_⟩
    rw [v3]
    have e2 : (m : ℚ) * 2 ^ (k + 95) / 2 ^ 150 = (m : ℚ) * (2 * (H : ℚ)) / 2 ^ 56 := by
      rw [pow_add, hHq]
      ring
    rw [e2]
    exact hbound

/-- A quotient rounded within the fraction `2 ^ (-24)`, of operands each within
the fraction `2 ^ (-24)` of `n` and `R`, is within the fraction `2 ^ (-22)` of
`n / R`. -/
theorem float32_compose_bound (n R a b v : ℚ) (hn : 0 < n) (hR : 0 < R) (hb : 0 < b)
    (ha1 : a * 2 ^ 24 ≤ n * 2 ^ 24 + n) (ha2 : n * 2 ^ 24 ≤ a * 2 ^ 24 + n)
    (hb1 : b * 2 ^ 24 ≤ R * 2 ^ 24 + R) (hb2 : R * 2 ^ 24 ≤ b * 2 ^ 24 + R)
    (hv : |v - a / b| ≤ a / b / 2 ^ 24) : |v - n / R| ≤ n / R / 2 ^ 22 := by
  have hc : a / b * b = a := div_mul_cancel₀ a hb.ne.symm
  rw [abs_le] at hv
  obtain ⟨hv1, hv2⟩ := hv
  have hapos : 0 < a := by nlinarith
  have hcpos : 0 < a / b := div_pos hapos hb
  have hvpos : 0 ≤ v := by
    have : (0 : ℚ) ≤ a / b - a / b / 2 ^ 24 := by
      have : a / b / 2 ^ 24 ≤ a / b := div_le_self hcpos.le (by norm_num)
      linarith
    linarith
  have k1 : v * b ≤ a + a / 2 ^ 24 := by
    have := mul_le_mul_of_nonneg_right hv2 hb.le
    have e : (a / b / 2 ^ 24) * b = a / 2 ^ 24 := by
      rw [div_right_comm]
      exact div_mul_cancel₀ _ hb.ne.symm
    rw [sub_mul, hc, e] at this
    linarith
  have k2 : a - a / 2 ^ 24 ≤ v * b := by
    have := mul_le_mul_of_nonneg_right hv1 hb.le
    have e : (a / b / 2 ^ 24) * b = a / 2 ^ 24 := by
      rw [div_right_comm]
      exact div_mul_cancel₀ _ hb.ne.symm
    rw [sub_mul, hc, neg_mul, e] at this
    linarith
  have k3 : v * (R * 2 ^ 24) ≤ v * (b * 2 ^ 24 + R) := mul_le_mul_of_nonneg_left hb2 hvpos
  have k4 : v * (b * 2 ^ 24) ≤ v * (R * 2 ^ 24 + R) := mul_le_mul_of_nonneg_left hb1 hvpos
  have hvR : 0 ≤ v * R := mul_nonneg hvpos hR.le
  rw [abs_le]
  constructor
  · have : (n - n / 2 ^ 22) / R ≤ v := by
      rw [div_le_iff₀ hR]
      linarith
    have e : -(n / R / 2 ^ 22) = (n - n / 2 ^ 22) / R - n / R := by ring
    linarith
  · have : v ≤ (n + n / 2 ^ 22) / R := by
      rw [le_div_iff₀ hR]
      linarith
    have e : n / R / 2 ^ 22 = (n + n / 2 ^ 22) / R - n / R := by ring
    linarith

/-- The binary32 quotient of a `uint32` numerator by a positive `int32` divisor
is finite and within the fraction `2 ^ (-22)` of the exact quotient; when both
operands are below `2 ^ 24`, so that their conversions are exact, it is within
the fraction `2 ^ (-24)`. -/
theorem float32Quotient_spec (n : Nat) (R : Int) (hn : n < 2 ^ 32) (hR : 0 < R)
    (hR' : R < 2 ^ 32) :
    float32IsFinite (float32Quotient n R) = true
      ∧ |float32Value (float32Quotient n R) - (n : ℚ) / (R : ℚ)| ≤ (n : ℚ) / (R : ℚ) / 2 ^ 22
      ∧ (n < 2 ^ 24 → R < 2 ^ 24 →
          |float32Value (float32Quotient n R) - (n : ℚ) / (R : ℚ)|
            ≤ (n : ℚ) / (R : ℚ) / 2 ^ 24) := by
  obtain ⟨b, rfl⟩ : ∃ b : Nat, R = (b : Int) := ⟨R.toNat, by omega⟩
  have hb0 : 0 < b := by exact_mod_cast hR
  have hb32 : b < 2 ^ 32 := by exact_mod_cast hR'
  have hRne : (b : Int) ≠ 0 := by omega
  have hRnn : ¬ ((b : Int) < 0) := by omega
  by_cases hn0 : n = 0
  · subst hn0
    simp [float32Quotient, hRne, hRnn, float32IsFinite, float32Value]
  · have hnpos : 0 < n := by omega
    simp only [float32Quotient, hRne, hRnn, hn0, if_false, Int.natAbs_ofNat, Nat.zero_add,
      Int.cast_natCast]
    obtain ⟨a1, a2, a3, a4⟩ := roundToFloat32_spec n hnpos hn
    obtain ⟨b1, b2, b3, b4⟩ := roundToFloat32_spec b hb0 hb32
    obtain ⟨_, q2, q3⟩ := float32QuotientBits_spec _ _ a1 a2 b1 b2
    refine ⟨q2, ?_, ?_⟩
    · exact float32_compose_bound (n : ℚ) (b : ℚ) (roundToFloat32 n : ℚ) (roundToFloat32 b : ℚ) _
        (by exact_mod_cast hnpos) (by exact_mod_cast hb0) (by exact_mod_cast b1)
        (by exact_mod_cast a3) (by exact_mod_cast a4) (by exact_mod_cast b3)
        (by exact_mod_cast b4) q3
    · intro h1 h2
      have h2' : b < 2 ^ 24 := by exact_mod_cast h2
      rw [roundToFloat32_of_lt n h1, roundToFloat32_of_lt b h2']
      exact (float32QuotientBits_spec n b hnpos (le_of_lt hn) hb0 (le_of_lt hb32)).2.2

/-- The structure that `Float32BufferDecodedInfo` builds when the sizes fit
`int32` and the channel count is positive. -/
theorem Float32BufferDecodedInfo_eq_some (PCMData : Buffer) (SampleRate NumOfChannels : Int)
    (hL : PCMData.length < 2 ^ 31) (hC : 0 < NumOfChannels) (hC' : NumOfChannels < 2 ^ 31) :
    Float32BufferDecodedInfo PCMData SampleRate NumOfChannels
      = some
        { PCMInfo :=
            { PCMData := PCMData
              PCMNumOfFrames := PCMData.length / 4 / NumOfChannels.toNat }
          SoundWaveBasicInfo :=
            { NumOfChannels := NumOfChannels
              SampleRate := SampleRate
              Duration := float32Quotient (PCMData.length / 4 / NumOfChannels.toNat)
                SampleRate } } := by
  have h1 : NumOfChannels % 2 ^ 64 = NumOfChannels :=
    Int.emod_eq_of_lt (le_of_lt hC) (lt_trans hC' (by norm_num))
  have h2 : PCMData.length / 4 / NumOfChannels.toNat ≤ PCMData.length :=
    le_trans (Nat.div_le_self _ _) (Nat.div_le_self _ _)
  have h3 : PCMData.length / 4 / NumOfChannels.toNat % 2 ^ 32
      = PCMData.length / 4 / NumOfChannels.toNat := Nat.mod_eq_of_lt (by omega)
  have h4 : NumOfChannels.toNat ≠ 0 := by omega
  simp only [Float32BufferDecodedInfo, h1, h3, h4, if_false]

/-- C12 (counterexample): for a float32 buffer of `12` bytes (three samples)
with `2` channels at `44100` Hz, `ImportAudioFromFloat32Buffer` hands on a
decoded structure with `PCMNumOfFrames = 1`, and `1 * 2 * 4` is not `12`; its
`Duration` is the binary32 number `0x37BE37C6`, that is `6233059 / 2^38`, which
is not `1 / 44100`. -/
theorem Float32BufferDecodedInfo_partial_frame :
    ∃ d : FDecodedAudioStruct,
      Float32BufferDecodedInfo [0, 0, 0, 0, 0, 0, 0, 0, 0, 0, 0, 0] 44100 2 = some d
        ∧ ImportAudioFromFloat32Buffer sampleEnv [0, 0, 0, 0, 0, 0, 0, 0, 0, 0, 0, 0] 44100 2 {}
          = ImportAudioFromDecodedInfo sampleEnv d (OnProgress_Internal sampleEnv 50 {})
        ∧ d.PCMInfo.PCMNumOfFrames = 1
        ∧ d.PCMInfo.PCMNumOfFrames * 2 * 4
          ≠ ([0, 0, 0, 0, 0, 0, 0, 0, 0, 0, 0, 0] : Buffer).length
        ∧ d.SoundWaveBasicInfo.Duration = 0x37BE37C6
        ∧ float32Value d.SoundWaveBasicInfo.Duration = 6233059 / 2 ^ 38
        ∧ float32Value d.SoundWaveBasicInfo.Duration
          ≠ (d.PCMInfo.PCMNumOfFrames : ℚ) / 44100 := by
  have hD : float32Quotient 1 44100 = 0x37BE37C6 := by decide
  have hV : float32Value 0x37BE37C6 = 6233059 / 2 ^ 38 := by
    simp only [float32Value]
    norm_num
  refine ⟨_, Float32BufferDecodedInfo_eq_some _ 44100 2 (by decide) (by decide) (by decide),
    ?_, ?_, ?_, ?_, ?_, ?_⟩
  · rw [ImportAudioFromFloat32Buffer,
      Float32BufferDecodedInfo_eq_some _ 44100 2 (by decide) (by decide) (by decide)]
  · decide
  · decide
  · exact hD
  · exact (congrArg float32Value hD).trans hV
  · show float32Value (float32Quotient 1 44100) ≠ ((1 : Nat) : ℚ) / 44100
    rw [hD, hV]
    norm_num

/-- C12 (amended): for every float32 PCM buffer of byte length `L` with
`0 < L < 2^31`, every channel count `C` with `0 < C < 2^31` and every sample
rate `R > 0`, `ImportAudioFromFloat32Buffer` hands on a decoded structure that
holds the buffer and has `PCMNumOfFrames = L / 4 / C` rounded down, so that
`PCMNumOfFrames * C * 4 ≤ L` with equality exactly when `4 * C` divides `L`.
Its `Duration` is the binary32 quotient of `PCMNumOfFrames` by `R`: for
`R < 2^31` a finite number within the fraction `2^(-22)` of
`PCMNumOfFrames / R`, and within the fraction `2^(-24)` when `PCMNumOfFrames`
and `R` are below `2^24`. -/
theorem Float32BufferDecodedInfo_invariant (PCMData : Buffer) (SampleRate NumOfChannels : Int)
    (_hL : 0 < PCMData.length) (hL' : PCMData.length < 2 ^ 31)
    (hC : 0 < NumOfChannels) (hC' : NumOfChannels < 2 ^ 31) (hR : 0 < SampleRate) :
    ∃ d : FDecodedAudioStruct,
      Float32BufferDecodedInfo PCMData SampleRate NumOfChannels = some d
      ∧ (∀ (env : Env) (s : Run),
        ImportAudioFromFloat32Buffer env PCMData SampleRate NumOfChannels s
          = ImportAudioFromDecodedInfo env d (OnProgress_Internal env 50 s))
      ∧ d.PCMInfo.PCMData = PCMData
      ∧ d.PCMInfo.PCMNumOfFrames = PCMData.length / 4 / NumOfChannels.toNat
      ∧ d.PCMInfo.PCMNumOfFrames * NumOfChannels.toNat * 4 ≤ PCMData.length
      ∧ (d.PCMInfo.PCMNumOfFrames * NumOfChannels.toNat * 4 = PCMData.length
        ↔ 4 * NumOfChannels.toNat ∣ PCMData.length)
      ∧ d.SoundWaveBasicInfo.Duration = float32Quotient d.PCMInfo.PCMNumOfFrames SampleRate
      ∧ (SampleRate < 2 ^ 31 →
        float32IsFinite d.SoundWaveBasicInfo.Duration = true
          ∧ |float32Value d.SoundWaveBasicInfo.Duration
              - (d.PCMInfo.PCMNumOfFrames : ℚ) / (SampleRate : ℚ)|
            ≤ (d.PCMInfo.PCMNumOfFrames : ℚ) / (SampleRate : ℚ) / 2 ^ 22
          ∧ (d.PCMInfo.PCMNumOfFrames < 2 ^ 24 → SampleRate < 2 ^ 24 →
            |float32Value d.SoundWaveBasicInfo.Duration
                - (d.PCMInfo.PCMNumOfFrames : ℚ) / (SampleRate : ℚ)|
              ≤ (d.PCMInfo.PCMNumOfFrames : ℚ) / (SampleRate : ℚ) / 2 ^ 24)) := by
  have hS := Float32BufferDecodedInfo_eq_some PCMData SampleRate NumOfChannels hL' hC hC'
  have hCpos : 0 < NumOfChannels.toNat := by omega
  have hdiv : PCMData.length / 4 / NumOfChannels.toNat
      = PCMData.length / (4 * NumOfChannels.toNat) := Nat.div_div_eq_div_mul _ _ _
  have hF : PCMData.length / 4 / NumOfChannels.toNat < 2 ^ 32 := by
    have h2 : PCMData.length / 4 / NumOfChannels.toNat ≤ PCMData.length :=
      le_trans (Nat.div_le_self _ _) (Nat.div_le_self _ _)
    omega
  refine ⟨_, hS, fun env s => ?_, rfl, rfl, ?_, ?_, rfl, fun hR' => ?_⟩
  · rw [ImportAudioFromFloat32Buffer, hS]
  · show PCMData.length / 4 / NumOfChannels.toNat * NumOfChannels.toNat * 4 ≤ PCMData.length
    rw [hdiv, Nat.mul_assoc, Nat.mul_comm NumOfChannels.toNat 4]
    exact Nat.div_mul_le_self _ _
  · show PCMData.length / 4 / NumOfChannels.toNat * NumOfChannels.toNat * 4 = PCMData.length
      ↔ _
    rw [hdiv, Nat.mul_assoc, Nat.mul_comm NumOfChannels.toNat 4]
    constructor
    · intro h
      exact ⟨PCMData.length / (4 * NumOfChannels.toNat), by rw [Nat.mul_comm]; exact h.symm⟩
    · intro h
      exact Nat.div_mul_cancel h
  · exact float32Quotient_spec _ SampleRate hF hR (lt_trans hR' (by norm_num))

/-- Witness for `Float32BufferDecodedInfo_invariant`: sixteen bytes (four
samples) with two channels at `44100` Hz give two frames and a finite
duration. -/
theorem Float32BufferDecodedInfo_invariant_witness :
    ∃ d : FDecodedAudioStruct,
      Float32BufferDecodedInfo [0, 0, 0, 0, 0, 0, 0, 0, 0, 0, 0, 0, 0, 0, 0, 0] 44100 2 = some d
        ∧ d.PCMInfo.PCMNumOfFrames = 16 / 4 / 2
        ∧ float32IsFinite d.SoundWaveBasicInfo.Duration = true := by
  obtain ⟨d, h1, _, _, h4, _, _, _, h8⟩ :=
    Float32BufferDecodedInfo_invariant [0, 0, 0, 0, 0, 0, 0, 0, 0, 0, 0, 0, 0, 0, 0, 0] 44100 2
      (by decide) (by decide) (by decide) (by decide) (by decide)
  exact ⟨d, h1, h4, (h8 (by decide)).1⟩

/-! ## RAW transcoding through the 8-bit intermediate -/

/-- C11 (counterexample): with the RAW transcoder of the specification, the
two-byte `Int16` buffer holding the sample `1` (its length is a multiple of
the sample width) transcoded from `Int16` to `Int16` is delivered, with
success, as the sample `0`: the bytes `0 0`, not `1 0`. -/
theorem TranscodeRAWDataFromBuffer_Int16_not_identity :
    ([1, 0] : Buffer).length % sampleSize ERAWAudioFormat.Int16 = 0
      ∧ (TranscodeRAWDataFromBuffer rawEnv [1, 0] ERAWAudioFormat.Int16 ERAWAudioFormat.Int16
          recordTranscodeFromBuffer {}).trace
        = [Event.TranscodeFromBufferResult true [0, 0]]
      ∧ ([0, 0] : Buffer) ≠ [1, 0] := by
  decide

/-- C11 (amended): for every input buffer, `TranscodeRAWDataFromBuffer` from
`UInt8` to `UInt8` executes the result delegate with success and the input
buffer itself; from `Int16`, `Int32` or `Float32` to the same format it
executes it with success and the buffer converted to `UInt8` and back. -/
theorem TranscodeRAWDataFromBuffer_same_format (env : Env) (RAWData_From : Buffer)
    (Result : Delegate (Bool × Buffer)) (s : Run) :
    TranscodeRAWDataFromBuffer env RAWData_From ERAWAudioFormat.UInt8 ERAWAudioFormat.UInt8
        Result s = ExecuteIfBound Result (true, RAWData_From) s
      ∧ TranscodeRAWDataFromBuffer env RAWData_From ERAWAudioFormat.Int16
          ERAWAudioFormat.Int16 Result s
        = ExecuteIfBound Result
            (true, env.RAWTranscoder_TranscodeRAWData_Array ERAWAudioFormat.UInt8
              ERAWAudioFormat.Int16
              (env.RAWTranscoder_TranscodeRAWData_Array ERAWAudioFormat.Int16
                ERAWAudioFormat.UInt8 RAWData_From)) s
      ∧ TranscodeRAWDataFromBuffer env RAWData_From ERAWAudioFormat.Int32
          ERAWAudioFormat.Int32 Result s
        = ExecuteIfBound Result
            (true, env.RAWTranscoder_TranscodeRAWData_Array ERAWAudioFormat.UInt8
              ERAWAudioFormat.Int32
              (env.RAWTranscoder_TranscodeRAWData_Array ERAWAudioFormat.Int32
                ERAWAudioFormat.UInt8 RAWData_From)) s
      ∧ TranscodeRAWDataFromBuffer env RAWData_From ERAWAudioFormat.Float32
          ERAWAudioFormat.Float32 Result s
        = ExecuteIfBound Result
            (true, env.RAWTranscoder_TranscodeRAWData_Array ERAWAudioFormat.UInt8
              ERAWAudioFormat.Float32
              (env.RAWTranscoder_TranscodeRAWData_Array ERAWAudioFormat.Float32
                ERAWAudioFormat.UInt8 RAWData_From)) s :=
  ⟨rfl, rfl, rfl, rfl⟩

/-- C16 (counterexample): with the RAW transcoder of the specification, the
`Int16` sample `1` transcoded to `Int32` by `TranscodeRAWDataFromBuffer` is
delivered as the sample `0`, whereas converting it to `Float32` and from there
to `Int32` gives the sample `65536` (bytes `0 0 1 0`). -/
theorem TranscodeRAWDataFromBuffer_not_through_Float32 :
    (TranscodeRAWDataFromBuffer rawEnv [1, 0] ERAWAudioFormat.Int16 ERAWAudioFormat.Int32
        recordTranscodeFromBuffer {}).trace
        = [Event.TranscodeFromBufferResult true [0, 0, 0, 0]]
      ∧ ConvertThroughFloat32 rawEnv [1, 0] ERAWAudioFormat.Int16 ERAWAudioFormat.Int32
        = [0, 0, 1, 0] := by
  decide

/-- C16 (amended): for every pair of raw formats, in particular every pair of
distinct integer formats, and every input buffer, `TranscodeRAWDataFromBuffer`
executes the result delegate with success and the composition of two
conversions through the unsigned 8-bit form: first to `UInt8`, then from
`UInt8`, a conversion between `UInt8` and `UInt8` being a copy. -/
theorem TranscodeRAWDataFromBuffer_through_UInt8 (env : Env) (RAWData_From : Buffer)
    (FormatFrom FormatTo : ERAWAudioFormat) (Result : Delegate (Bool × Buffer)) (s : Run) :
    TranscodeRAWDataFromBuffer env RAWData_From FormatFrom FormatTo Result s
      = ExecuteIfBound Result
          (true, convertOrCopy env ERAWAudioFormat.UInt8 FormatTo
            (convertOrCopy env FormatFrom ERAWAudioFormat.UInt8 RAWData_From)) s := by
  cases FormatFrom <;> cases FormatTo <;> rfl

/-! ## Import of raw silence -/

/-- The characters of `ConvertSecondsToString` on a non-negative number. -/
theorem ConvertSecondsToString_data (n : Nat) :
    (ConvertSecondsToString (n : Int)).data
      = (if 0 < n / 3600 then fieldChars (n / 3600) ++ [':'] else [])
        ++ fieldChars (n % 3600 / 60) ++ [':'] ++ fieldChars (n % 60) := by
  have hF : ∀ k : Nat, (FString_FromInt (k : Int)).data = decimalChars k := by
    intro k
    have : ¬ ((k : Int) < 0) := by omega
    simp [FString_FromInt, this]
  have hfield : ∀ k : Nat,
      (if (k : Int) < 10 then "0" ++ FString_FromInt (k : Int)
        else FString_FromInt (k : Int)).data = fieldChars k := by
    intro k
    unfold fieldChars
    by_cases h : k < 10
    · have h' : (k : Int) < 10 := by omega
      rw [if_pos h, if_pos h', String.data_append, hF]
      rfl
    · have h' : ¬ (k : Int) < 10 := by omega
      rw [if_neg h, if_neg h', hF]
  have h1 : (n : Int).tdiv 3600 = ((n / 3600 : Nat) : Int) := (Int.ofNat_tdiv n 3600).symm
  have h2 : (n : Int).tmod 3600 = ((n % 3600 : Nat) : Int) := (Int.ofNat_tmod n 3600).symm
  have h3 : ((n % 3600 : Nat) : Int).tdiv 60 = ((n % 3600 / 60 : Nat) : Int) :=
    (Int.ofNat_tdiv (n % 3600) 60).symm
  have h4 : ((n % 3600 : Nat) : Int).tmod 60 = ((n % 60 : Nat) : Int) := by
    have h5 : n % 3600 % 60 = n % 60 := by omega
    exact (Int.ofNat_tmod (n % 3600) 60).symm.trans (congrArg _ h5)
  simp only [ConvertSecondsToString, h1, h2, h3, h4]
  by_cases h : 0 < n / 3600
  · have h' : ((n / 3600 : Nat) : Int) > 0 := by omega
    simp only [if_pos h, if_pos h', String.data_append, hfield]
    simp
  · have h' : ¬ ((n / 3600 : Nat) : Int) > 0 := by omega
    simp only [if_neg h, if_neg h', String.data_append, hfield]
    simp

/-- The decimal digits of a number below ten. -/
theorem decimalChars_of_lt_ten (k : Nat) (h : k < 10) :
    decimalChars k = [Nat.digitChar k] := by
  unfold decimalChars
  by_cases h0 : k = 0
  · subst h0
    rfl
  · rw [if_neg h0, Nat.digits_of_lt 10 k h0 h]
    rfl

/-- A number of at least ten has at least two decimal digits, and exactly two
below one hundred. -/
theorem decimalChars_length_of_ten_le (k : Nat) (h : 10 ≤ k) :
    2 ≤ (decimalChars k).length ∧ (k < 100 → (decimalChars k).length = 2) := by
  have h0 : k ≠ 0 := by omega
  have hq : k / 10 ≠ 0 := by omega
  have hd : Nat.digits 10 k = (k % 10) :: Nat.digits 10 (k / 10) :=
    Nat.digits_def' (by norm_num) (by omega)
  have hne : Nat.digits 10 (k / 10) ≠ [] := Nat.digits_ne_nil_iff_ne_zero.mpr hq
  unfold decimalChars
  rw [if_neg h0, hd]
  constructor
  · have : 1 ≤ (Nat.digits 10 (k / 10)).length := List.length_pos.mpr hne
    simp only [List.length_map, List.length_reverse, List.length_cons]
    omega
  · intro h100
    rw [Nat.digits_of_lt 10 (k / 10) hq (by omega)]
    rfl

/-- A field of a value below one hundred is written with two characters. -/
theorem fieldChars_length (k : Nat) (h : k < 100) : (fieldChars k).length = 2 := by
  unfold fieldChars
  by_cases h10 : k < 10
  · rw [if_pos h10, decimalChars_of_lt_ten k h10]
    rfl
  · rw [if_neg h10]
    exact (decimalChars_length_of_ten_le k (by omega)).2 h

/-- The code's field is the value left-padded to two digits. -/
theorem padTwo_data (k : Nat) : (padTwo k).data = fieldChars k := by
  unfold padTwo fieldChars
  by_cases h10 : k < 10
  · rw [if_pos h10, decimalChars_of_lt_ten k h10]
    rfl
  · rw [if_neg h10]
    have h2 := (decimalChars_length_of_ten_le k (by omega)).1
    have h0 : 2 - (decimalChars k).length = 0 := by omega
    rw [h0]
    rfl

/-- Reading the decimal digits of a number gives the number back. -/
theorem charsValue_decimalChars (k : Nat) : charsValue (decimalChars k) = k := by
  have hdigit : ∀ d, d < 10 → (Nat.digitChar d).toNat - 48 = d := by decide
  unfold decimalChars
  by_cases h0 : k = 0
  · subst h0
    rw [if_pos rfl]
    simp [charsValue]
  · rw [if_neg h0]
    unfold charsValue
    rw [List.map_map, ← List.map_reverse, List.reverse_reverse]
    have hmap : (Nat.digits 10 k).map ((fun c : Char => c.toNat - 48) ∘ Nat.digitChar)
        = Nat.digits 10 k := by
      conv_rhs => rw [← List.map_id (Nat.digits 10 k)]
      apply List.map_congr_left
      intro d hd
      exact hdigit d (Nat.digits_lt_base (by norm_num) hd)
    rw [hmap]
    exact Nat.ofDigits_digits 10 k

/-- Reading a field gives its value back. -/
theorem charsValue_fieldChars (k : Nat) : charsValue (fieldChars k) = k := by
  unfold fieldChars
  by_cases h10 : k < 10
  · rw [if_pos h10]
    have h := charsValue_decimalChars k
    unfold charsValue at h ⊢
    rw [List.map_cons, List.reverse_cons, Nat.ofDigits_append, h]
    simp
  · rw [if_neg h10]
    exact charsValue_decimalChars k

/-- Two fields written alike have the same value. -/
theorem fieldChars_injective (a b : Nat) (h : fieldChars a = fieldChars b) : a = b := by
  rw [← charsValue_fieldChars a, ← charsValue_fieldChars b, h]

/-- Two non-negative numbers of seconds written alike are equal. -/
theorem ConvertSecondsToString_data_injective (a b : Nat)
    (h : (ConvertSecondsToString (a : Int)).data = (ConvertSecondsToString (b : Int)).data) :
    a = b := by
  rw [ConvertSecondsToString_data, ConvertSecondsToString_data] at h
  have hma : a % 3600 / 60 < 100 := by omega
  have hmb : b % 3600 / 60 < 100 := by omega
  have hsa : a % 60 < 100 := by omega
  have hsb : b % 60 < 100 := by omega
  have hla := fieldChars_length _ hma
  have hlb := fieldChars_length _ hmb
  have hla' := fieldChars_length _ hsa
  have hlb' := fieldChars_length _ hsb
  simp only [List.append_assoc] at h
  obtain ⟨hH, hT⟩ := List.append_inj' h (by simp [hla, hlb, hla', hlb'])
  obtain ⟨hM, hS⟩ := List.append_inj hT (by rw [hla, hlb])
  have hm : a % 3600 / 60 = b % 3600 / 60 := fieldChars_injective _ _ hM
  have hs : a % 60 = b % 60 := by
    apply fieldChars_injective
    simpa using hS
  have hh : a / 3600 = b / 3600 := by
    by_cases ha : 0 < a / 3600 <;> by_cases hb : 0 < b / 3600
    · rw [if_pos ha, if_pos hb] at hH
      exact fieldChars_injective _ _ (List.append_inj' hH rfl).1
    · rw [if_pos ha, if_neg hb] at hH
      simp at hH
    · rw [if_neg ha, if_pos hb] at hH
      simp at hH
    · omega
  omega

/-- C17: for every `Seconds ≥ 0`, with `HH = Seconds / 3600`,
`MM = Seconds % 3600 / 60` and `SS = Seconds % 60` (so `MM < 60`, `SS < 60` and
`HH * 3600 + MM * 60 + SS = Seconds`), `ConvertSecondsToString` returns
`MM:SS` when `Seconds < 3600` and `HH:MM:SS` otherwise, each field being the
decimal value left-padded with zeros to at least two digits; and no other
non-negative number of seconds gives the same string. -/
theorem ConvertSecondsToString_format (Seconds : Int) (h : 0 ≤ Seconds) :
    Seconds.toNat % 3600 / 60 < 60 ∧ Seconds.toNat % 60 < 60
      ∧ ((Seconds.toNat / 3600 * 3600 + Seconds.toNat % 3600 / 60 * 60
          + Seconds.toNat % 60 : Nat) : Int) = Seconds
      ∧ (Seconds < 3600 →
          ConvertSecondsToString Seconds
            = padTwo (Seconds.toNat % 3600 / 60) ++ ":" ++ padTwo (Seconds.toNat % 60))
      ∧ (3600 ≤ Seconds →
          ConvertSecondsToString Seconds
            = padTwo (Seconds.toNat / 3600) ++ ":" ++ padTwo (Seconds.toNat % 3600 / 60)
              ++ ":" ++ padTwo (Seconds.toNat % 60))
      ∧ ∀ Other : Int, 0 ≤ Other →
          ConvertSecondsToString Other = ConvertSecondsToString Seconds → Other = Seconds := by
  obtain ⟨n, rfl⟩ := Int.eq_ofNat_of_zero_le h
  have hn : (n : Int).toNat = n := Int.toNat_natCast n
  refine ⟨by omega, by omega, by omega, ?_, ?_, ?_⟩
  · intro hlt
    have h0 : ¬ 0 < n / 3600 := by omega
    apply String.ext
    rw [ConvertSecondsToString_data, if_neg h0]
    simp only [String.data_append, padTwo_data, hn]
    rfl
  · intro hge
    have h0 : 0 < n / 3600 := by omega
    apply String.ext
    rw [ConvertSecondsToString_data, if_pos h0]
    simp only [String.data_append, padTwo_data, hn]
  · intro Other hOther hEq
    obtain ⟨m, rfl⟩ := Int.eq_ofNat_of_zero_le hOther
    rw [ConvertSecondsToString_data_injective m n (congrArg String.data hEq)]

/-- Witness for `ConvertSecondsToString_format`: `3725` seconds are one hour,
two minutes and five seconds, written `01:02:05`. -/
theorem ConvertSecondsToString_format_witness :
    (0 : Int) ≤ 3725
      ∧ ConvertSecondsToString 3725 = padTwo 1 ++ ":" ++ padTwo 2 ++ ":" ++ padTwo 5
      ∧ ConvertSecondsToString 3725 = "01:02:05" :=
  ⟨by decide, (ConvertSecondsToString_format 3725 (by decide)).2.2.2.2.1 (by decide), by
    apply String.ext
    rw [show (3725 : Int) = ((3725 : Nat) : Int) from rfl, ConvertSecondsToString_data]
    simp [fieldChars, decimalChars]
    decide⟩

end RuntimeAudioImporter

namespace lotus.google.protobuf

/-! ## Deleting the fields of one number -/

/-- Writing an element over itself leaves the vector as it is. -/
theorem set_getElem_same (l : List UnknownField) (i : Nat) (h : i < l.length) :
    l.set i l[i] = l := by
  rw [List.set_eq_take_append_cons_drop, if_pos h, ← List.drop_eq_getElem_cons h,
    List.take_append_drop]

/-- The loop keeps the `left` fields already compacted and appends, in order,
the fields from index `i` on whose number differs; `left` grows by their
count. -/
theorem UnknownFieldSet.DeleteByNumber_loop_spec (number : Int) (fuel : Nat) :
    ∀ (i left : Nat) (fields : List UnknownField), left ≤ i → i + fuel = fields.length →
      ((UnknownFieldSet.DeleteByNumber_loop number fuel i left fields).2.take
          (UnknownFieldSet.DeleteByNumber_loop number fuel i left fields).1
        = fields.take left ++ (fields.drop i).filter (fun f => decide (f.number ≠ number)))
      ∧ (UnknownFieldSet.DeleteByNumber_loop number fuel i left fields).1
        = left + ((fields.drop i).filter (fun f => decide (f.number ≠ number))).length := by
  induction fuel with
  | zero =>
    intro i left fields hle hfuel
    have hi : fields.length ≤ i := by omega
    simp [UnknownFieldSet.DeleteByNumber_loop, List.drop_eq_nil_of_le hi]
  | succ fuel ih =>
    intro i left fields hle hfuel
    have hi : i < fields.length := by omega
    have hdrop : fields.drop i = fields[i] :: fields.drop (i + 1) :=
      List.drop_eq_getElem_cons hi
    unfold UnknownFieldSet.DeleteByNumber_loop
    rw [dif_pos hi]
    by_cases hnum : fields[i].number = number
    · have hf : (fields.drop i).filter (fun f => decide (f.number ≠ number))
          = (fields.drop (i + 1)).filter (fun f => decide (f.number ≠ number)) := by
        rw [hdrop, List.filter_cons_of_neg]
        simp [hnum]
      simp only [hnum, if_true]
      obtain ⟨h1, h2⟩ := ih (i + 1) left fields (by omega) (by omega)
      rw [h1, h2, hf]
      exact ⟨rfl, rfl⟩
    · have hf : (fields.drop i).filter (fun f => decide (f.number ≠ number))
          = fields[i] :: (fields.drop (i + 1)).filter (fun f => decide (f.number ≠ number)) := by
        rw [hdrop, List.filter_cons_of_pos]
        simp [hnum]
      simp only [hnum, if_false]
      have hleft : left < fields.length := by omega
      have hset : (if i ≠ left then fields.set left fields[i] else fields)
          = fields.set left fields[i] := by
        by_cases hil : i = left
        · subst hil
          rw [if_neg (by simp), set_getElem_same fields i hi]
        · rw [if_pos hil]
      rw [hset]
      obtain ⟨h1, h2⟩ := ih (i + 1) (left + 1) (fields.set left fields[i]) (by omega)
        (by rw [List.length_set]; omega)
      have htake : (fields.set left fields[i]).take (left + 1)
          = fields.take left ++ [fields[i]] := by
        rw [List.set_eq_take_append_cons_drop, if_pos hleft]
        simp [List.take_append_eq_append_take, List.length_take,
          Nat.min_eq_left (le_of_lt hleft)]
      rw [h1, h2, List.drop_set_of_lt _ _ (by omega), htake, hf]
      constructor
      · simp
      · simp only [List.length_cons]
        omega

/-- C18: for every `UnknownFieldSet` and every field number, after
`DeleteByNumber` the set holds exactly the fields whose number differs, in
their original order and unchanged (the filter of the field list), and
`fields_` is `NULL` exactly when no field remains. -/
theorem UnknownFieldSet.DeleteByNumber_eq_filter (self : UnknownFieldSet) (number : Int) :
    (self.DeleteByNumber number).fields_.getD []
        = (self.fields_.getD []).filter (fun f => decide (f.number ≠ number))
      ∧ ((self.DeleteByNumber number).fields_ = none
        ↔ (self.fields_.getD []).filter (fun f => decide (f.number ≠ number)) = [])
      ∧ ((self.DeleteByNumber number).fields_ = none
        ↔ (self.DeleteByNumber number).field_count = 0) := by
  obtain ⟨fields_⟩ := self
  cases fields_ with
  | none => simp [UnknownFieldSet.DeleteByNumber, UnknownFieldSet.field_count]
  | some fields =>
    obtain ⟨h1, h2⟩ := UnknownFieldSet.DeleteByNumber_loop_spec number fields.length 0 0 fields
      (le_refl 0) (by simp)
    simp only [List.take_zero, List.nil_append, List.drop_zero, Nat.zero_add] at h1 h2
    simp only [UnknownFieldSet.DeleteByNumber, Option.getD_some]
    generalize fields.filter (fun f => decide (f.number ≠ number)) = Kept at h1 h2 ⊢
    by_cases h0 : (UnknownFieldSet.DeleteByNumber_loop number fields.length 0 0 fields).1 = 0
    · have hnil : Kept = [] := List.length_eq_zero.mp (by rw [← h2, h0])
      simp [h0, hnil, UnknownFieldSet.field_count]
    · have hne : Kept ≠ [] := by
        intro hnil
        rw [hnil] at h2
        exact h0 h2
      have hlen : Kept.length ≠ 0 := fun h => hne (List.length_eq_zero.mp h)
      simp [h0, h1, hne, hlen, UnknownFieldSet.field_count]

/-- Witness for `UnknownFieldSet.DeleteByNumber_eq_filter`: deleting number `1`
from four fields keeps the second and the fourth. -/
theorem UnknownFieldSet.DeleteByNumber_eq_filter_witness :
    ((UnknownFieldSet.mk (some [UnknownField.varint 1 10, UnknownField.fixed32 2 20,
        UnknownField.varint 1 30, UnknownField.length_delimited 3 [1, 2]])).DeleteByNumber
        1).fields_.getD []
      = [UnknownField.fixed32 2 20, UnknownField.length_delimited 3 [1, 2]] :=
  (UnknownFieldSet.DeleteByNumber_eq_filter
    (UnknownFieldSet.mk (some [UnknownField.varint 1 10, UnknownField.fixed32 2 20,
      UnknownField.varint 1 30, UnknownField.length_delimited 3 [1, 2]])) 1).1

end lotus.google.protobuf
